import Mathlib

/-!
# Conway's Game of Life on a torus (`gameoflife.c`)

A shallow embedding of the simulation core of `gameoflife.c`:

* `mod`, `tick` and `seed_cells` are transcribed statement by statement; the
  `for` loops become `forLoop`, a left fold over `0, 1, ..., n-1`;
* a `u8 cells[height][width]` array is the row-major list of its bytes, so
  `cells[y][x]` is element `y * width + x`; an access outside the array is
  undefined in C: here one past the end reads 0 and writes nothing, and a
  negative offset counts as offset 0 (`tick_indices_in_range` shows that `tick`
  makes no such access); `width` and `height` are natural numbers;
* C `int` values are unbounded integers (signed overflow is undefined in C,
  and no computation below reaches `2^31` for a grid that fits in memory);
* the body of the `while (true)` loop of `main` is `mainLoopBody`, a function
  from the run state to the next run state and what the iteration did; the
  C library generator behind `srand` and `rand` is a parameter `gen`, and the
  history buffers, which `main` allocates and never initialises, may hold
  anything when the loop is entered.
-/

namespace GameOfLife

/-! ## Loops and arrays -/

/-- The loop `for (int i = 0; i < n; i++) body`, threading the state `s`. -/
def forLoop {σ : Type} (n : Nat) (body : Nat → σ → σ) (s : σ) : σ :=
  (List.range n).foldl (fun acc i => body i acc) s

/-- Offset of `cells[y][x]` in a `u8 cells[height][width]` array. -/
def cellIndex (width : Nat) (y x : Int) : Nat :=
  (y * (width : Int) + x).toNat

/-- The read `cells[y][x]`. -/
def readCell (width : Nat) (cells : List Nat) (y x : Int) : Nat :=
  cells.getD (cellIndex width y x) 0

/-- The write `cells[y][x] = v`. -/
def writeCell (width : Nat) (cells : List Nat) (y x : Int) (v : Nat) : List Nat :=
  cells.set (cellIndex width y x) v

/-! ## `mod` and `tick` -/

/-- The function `mod`: `(a % divisor + divisor) % divisor`, with C's truncating `%`. -/
def mod (a divisor : Int) : Int :=
  Int.tmod (Int.tmod a divisor + divisor) divisor

/-- The local variables of `tick` that its first loop nest updates. -/
structure TickState where
  next : List Nat
  live_cells : Nat
deriving DecidableEq, Repr

/-- The expression assigned to `live_neighbors` in `tick`. -/
def live_neighbors (width height : Nat) (cells : List Nat) (y x : Nat) : Nat :=
  let yp := mod ((y : Int) - 1) height
  let yn := mod ((y : Int) + 1) height
  let xp := mod ((x : Int) - 1) width
  let xn := mod ((x : Int) + 1) width
  readCell width cells yp xp + readCell width cells yp x + readCell width cells yp xn +
  readCell width cells y xp + readCell width cells y xn +
  readCell width cells yn xp + readCell width cells yn x + readCell width cells yn xn

/-- The body of the inner loop of the first loop nest of `tick`. -/
def tickCell (width height : Nat) (cells : List Nat) (y x : Nat) (s : TickState) :
    TickState :=
  if readCell width cells y x ≠ 0 then
    if live_neighbors width height cells y x ≥ 2 ∧ live_neighbors width height cells y x ≤ 3 then
      { next := writeCell width s.next y x 1, live_cells := s.live_cells + 1 }
    else
      { next := writeCell width s.next y x 0, live_cells := s.live_cells }
  else
    if live_neighbors width height cells y x = 3 then
      { next := writeCell width s.next y x 1, live_cells := s.live_cells + 1 }
    else
      { next := writeCell width s.next y x 0, live_cells := s.live_cells }

/-- The function `tick`, started with the `alloca` buffer holding `next0`:
the new contents of `cells` and the returned `live_cells`. -/
def tickFrom (next0 : List Nat) (width height : Nat) (cells : List Nat) : List Nat × Nat :=
  let s := forLoop height (fun y s => forLoop width (fun x s => tickCell width height cells y x s) s)
    { next := next0, live_cells := 0 }
  let cells1 := forLoop height
    (fun y c => forLoop width (fun x c => writeCell width c y x (readCell width s.next y x)) c) cells
  (cells1, s.live_cells)

/-- The function `tick`. The bytes of the fresh `alloca` buffer are taken to be zero;
`tickFrom_eq_tick` shows that they do not matter. -/
def tick (width height : Nat) (cells : List Nat) : List Nat × Nat :=
  tickFrom (List.replicate (width * height) 0) width height cells

/-! ## Closed form of `tick` and the rule of the specification -/

/-- The value `tick` stores in `next[y][x]`. -/
def newCell (width height : Nat) (cells : List Nat) (y x : Nat) : Nat :=
  if readCell width cells y x ≠ 0 then
    if live_neighbors width height cells y x ≥ 2 ∧ live_neighbors width height cells y x ≤ 3 then 1
    else 0
  else
    if live_neighbors width height cells y x = 3 then 1 else 0

/-- The value `tick` stores at offset `k` of `next`. -/
def newCellAt (width height : Nat) (cells : List Nat) (k : Nat) : Nat :=
  newCell width height cells (k / width) (k % width)

/-- The grid `tick` computes, as one list. -/
def nextGrid (width height : Nat) (cells : List Nat) : List Nat :=
  (List.range (width * height)).map (newCellAt width height cells)

/-- The eight neighbour offsets `(dx, dy)` of the transition rule. -/
def neighbourOffsets : List (Int × Int) :=
  [(-1, -1), (0, -1), (1, -1), (-1, 0), (1, 0), (-1, 1), (0, 1), (1, 1)]

/-- The neighbour count of the specification: the sum of the grid's values at
`(mod (x + dx) width, mod (y + dy) height)` over the eight offsets. -/
def neighbourSum (width height : Nat) (cells : List Nat) (x y : Nat) : Nat :=
  (neighbourOffsets.map (fun d =>
    readCell width cells (mod ((y : Int) + d.2) height) (mod ((x : Int) + d.1) width))).sum

/-! ## The shape catalog and stamping -/

/-- The struct `ShapeCells`. -/
structure ShapeCells where
  cells : List Nat
  width : Nat
  height : Nat
deriving DecidableEq, Repr

/-- The struct `ShapeEntry`. -/
structure ShapeEntry where
  key : String
  cells : ShapeCells

/-- The cells of the catalog entry `glider`. -/
def glider : ShapeCells :=
  { width := 3, height := 3, cells := [
      0, 1, 0,
      0, 0, 1,
      1, 1, 1 ] }

/-- The cells of the catalog entry `glider_gun`. -/
def glider_gun : ShapeCells :=
  { width := 36, height := 9, cells := [
      0, 0, 0, 0, 0, 0, 0, 0, 0, 0, 0, 0, 0, 0, 0, 0, 0, 0, 0, 0, 0, 0, 0, 0, 1, 0, 0, 0, 0, 0, 0, 0, 0, 0, 0, 0,
      0, 0, 0, 0, 0, 0, 0, 0, 0, 0, 0, 0, 0, 0, 0, 0, 0, 0, 0, 0, 0, 0, 1, 0, 1, 0, 0, 0, 0, 0, 0, 0, 0, 0, 0, 0,
      0, 0, 0, 0, 0, 0, 0, 0, 0, 0, 0, 0, 1, 1, 0, 0, 0, 0, 0, 0, 1, 1, 0, 0, 0, 0, 0, 0, 0, 0, 0, 0, 0, 0, 1, 1,
      0, 0, 0, 0, 0, 0, 0, 0, 0, 0, 0, 1, 0, 0, 0, 1, 0, 0, 0, 0, 1, 1, 0, 0, 0, 0, 0, 0, 0, 0, 0, 0, 0, 0, 1, 1,
      1, 1, 0, 0, 0, 0, 0, 0, 0, 0, 1, 0, 0, 0, 0, 0, 1, 0, 0, 0, 1, 1, 0, 0, 0, 0, 0, 0, 0, 0, 0, 0, 0, 0, 0, 0,
      1, 1, 0, 0, 0, 0, 0, 0, 0, 0, 1, 0, 0, 0, 1, 0, 1, 1, 0, 0, 0, 0, 1, 0, 1, 0, 0, 0, 0, 0, 0, 0, 0, 0, 0, 0,
      0, 0, 0, 0, 0, 0, 0, 0, 0, 0, 1, 0, 0, 0, 0, 0, 1, 0, 0, 0, 0, 0, 0, 0, 1, 0, 0, 0, 0, 0, 0, 0, 0, 0, 0, 0,
      0, 0, 0, 0, 0, 0, 0, 0, 0, 0, 0, 1, 0, 0, 0, 1, 0, 0, 0, 0, 0, 0, 0, 0, 0, 0, 0, 0, 0, 0, 0, 0, 0, 0, 0, 0,
      0, 0, 0, 0, 0, 0, 0, 0, 0, 0, 0, 0, 1, 1, 0, 0, 0, 0, 0, 0, 0, 0, 0, 0, 0, 0, 0, 0, 0, 0, 0, 0, 0, 0, 0, 0
    ] }

/-- The catalog `shapes`. -/
def shapes : List ShapeEntry := [
  { key := "glider", cells := glider },
  { key := "glider_gun", cells := glider_gun } ]

/-- The two stamping loops of `main`: `cells[y + shape_y_offset][x + shape_x_offset] =
shape.cells[shape.width * y + x]` over the shape's box. -/
def stampCells (width : Nat) (sc : ShapeCells) (shape_x_offset shape_y_offset : Int)
    (cells : List Nat) : List Nat :=
  forLoop sc.height (fun y c => forLoop sc.width (fun x c =>
    writeCell width c ((y : Int) + shape_y_offset) ((x : Int) + shape_x_offset)
      (sc.cells.getD (sc.width * y + x) 0)) c) cells

/-- The shape lookup of `main`: the first catalog entry whose key is `shape`. -/
def lookupShape (shape : String) : Option ShapeCells :=
  (shapes.find? (fun e => e.key == shape)).map (fun e => e.cells)

/-- The shape block of `main` (run when a shape name was given): the grid after
stamping, or `none` when the name is not in the catalog ("Invalid shape"). -/
def stampShape (shape : String) (width : Nat) (shape_x_offset shape_y_offset : Int)
    (cells : List Nat) : Option (List Nat) :=
  (lookupShape shape).map (fun sc => stampCells width sc shape_x_offset shape_y_offset cells)

/-- The `width * height` grid that is all dead except the catalog shape `shape`
stamped at the given offset. -/
def shapeGrid (shape : String) (width height : Nat) (shape_x_offset shape_y_offset : Int) :
    List Nat :=
  (stampShape shape width shape_x_offset shape_y_offset (List.replicate (width * height) 0)).getD []

/-- The `width * height` grid whose live cells are exactly the listed `(x, y)`. -/
def gridOfLive (width height : Nat) (live : List (Nat × Nat)) : List Nat :=
  (List.range (width * height)).map (fun k => if (k % width, k / width) ∈ live then 1 else 0)

/-- The grid after `n` calls of `tick`, with the value the last call returned. -/
def ticks : Nat → Nat → Nat → List Nat → List Nat × Nat
  | 0, _, _, cells => (cells, 0)
  | n + 1, width, height, cells => tick width height (ticks n width height cells).1


/-! ## Bit-packed grids

Evaluating `tick` on a large grid by unfolding list reads is slow, so concrete
runs are computed on the grid packed into one natural number (cell `k` is bit
`k`); `ticks_eq_decodeBits` relates the two. The packed functions are written
with `Nat.add`, `Nat.mul`, ... applied directly. -/

/-- The number whose bit `k` is cell `k` of a grid of 0/1 cells. -/
def encodeBits : List Nat → Nat
  | [] => 0
  | c :: cs => Nat.add c (Nat.mul 2 (encodeBits cs))

/-- Bit `k` of `B`, as 0 or 1. -/
def bitAt (B k : Nat) : Nat :=
  Nat.mod (Nat.shiftRight B k) 2

/-- The first `n` bits of `B` as a grid. -/
def decodeBits (n B : Nat) : List Nat :=
  (List.range n).map (bitAt B)

/-- The transition rule on a cell value `c` and its neighbour count `n`. -/
def lifeRule : Nat → Nat → Nat
  | 0, 3 => 1
  | 0, _ => 0
  | _ + 1, 2 => 1
  | _ + 1, 3 => 1
  | _ + 1, _ => 0

/-- The new value of cell `k`, computed on the packed grid. -/
def fastCell (width height B k : Nat) : Nat :=
  lifeRule (bitAt B k)
    (Nat.add (Nat.add (Nat.add (Nat.add (Nat.add (Nat.add (Nat.add
    (bitAt B (Nat.add (Nat.mul (Nat.mod (Nat.sub (Nat.add (Nat.div k width) height) 1) height) width)
      (Nat.mod (Nat.sub (Nat.add (Nat.mod k width) width) 1) width)))
    (bitAt B (Nat.add (Nat.mul (Nat.mod (Nat.sub (Nat.add (Nat.div k width) height) 1) height) width)
      (Nat.mod k width))))
    (bitAt B (Nat.add (Nat.mul (Nat.mod (Nat.sub (Nat.add (Nat.div k width) height) 1) height) width)
      (Nat.mod (Nat.add (Nat.mod k width) 1) width))))
    (bitAt B (Nat.add (Nat.mul (Nat.div k width) width)
      (Nat.mod (Nat.sub (Nat.add (Nat.mod k width) width) 1) width))))
    (bitAt B (Nat.add (Nat.mul (Nat.div k width) width)
      (Nat.mod (Nat.add (Nat.mod k width) 1) width))))
    (bitAt B (Nat.add (Nat.mul (Nat.mod (Nat.add (Nat.div k width) 1) height) width)
      (Nat.mod (Nat.sub (Nat.add (Nat.mod k width) width) 1) width))))
    (bitAt B (Nat.add (Nat.mul (Nat.mod (Nat.add (Nat.div k width) 1) height) width)
      (Nat.mod k width))))
    (bitAt B (Nat.add (Nat.mul (Nat.mod (Nat.add (Nat.div k width) 1) height) width)
      (Nat.mod (Nat.add (Nat.mod k width) 1) width))))

/-- Apply `f` to `B` after `B` has been evaluated. -/
def strictNat (B : Nat) (f : Nat → Nat) : Nat :=
  match B with
  | 0 => f 0
  | b + 1 => f (b + 1)

/-- One tick on the packed grid. -/
def fastStep (width height B : Nat) : Nat :=
  strictNat B (fun b =>
    encodeBits ((List.range (Nat.mul width height)).map (fastCell width height b)))

/-- The packed grid after `n` ticks. -/
def fastSteps : Nat → Nat → Nat → Nat → Nat
  | 0, _, _, B => B
  | n + 1, width, height, B => fastStep width height (fastSteps n width height B)

/-- A `width * height` grid whose cells are all 0 or 1. -/
def IsGrid (width height : Nat) (cells : List Nat) : Prop :=
  cells.length = width * height ∧ ∀ c ∈ cells, c ≤ 1

/-- The value of cell `k` after the catalog shape `sc` was stamped at offset
`(xo, yo)` of a grid of the given width: the shape's cell inside the shape's box,
the old cell outside. -/
def stampedCell (width : Nat) (sc : ShapeCells) (xo yo : Nat) (cells : List Nat) (k : Nat) : Nat :=
  if xo ≤ k % width ∧ k % width < xo + sc.width ∧ yo ≤ k / width ∧ k / width < yo + sc.height then
    sc.cells.getD (sc.width * (k / width - yo) + (k % width - xo)) 0
  else cells.getD k 0

/-- The value of cell `k` of the all-dead grid after a shape of 0/1 cells, packed
into `S`, was stamped at offset `(xo, yo)`. -/
def stampedBit (width sw sh S xo yo k : Nat) : Nat :=
  if xo ≤ k % width ∧ k % width < xo + sw ∧ yo ≤ k / width ∧ k / width < yo + sh then
    bitAt S (sw * (k / width - yo) + (k % width - xo))
  else 0

/-! ## Fixtures for the glider gun run -/

/-- The 48 x 24 grid that is all dead except `glider_gun` stamped at offset (4, 4). -/
def gunGrid : List Nat :=
  shapeGrid "glider_gun" 48 24 4 4

/-- The live cells `(x, y)` of the glider the gun has emitted after 30 ticks. -/
def gunGlider : List (Nat × Nat) :=
  [(27, 13), (28, 14), (29, 14), (27, 15), (28, 15)]

/-- The packed grids of generations 0, 3, 6, ..., 30 of the run started from `gunGrid`. -/
def gunOrbit : List Nat := [
  48627135572824625714388126793709777482577337721150101154612465488678212292804531911830778420829922134392378083688368085999235517453349650889435407355393379325578551485836044533760,
  24313567786412140098904352736953706615742507060558676972206902041887215291210606300567214471710263230945323637486846609462840011515644022082663748533245915195290277360346800848896,
  24313567786422304044948984981450319484775081204552668800850387422741800612695274540747567192422348807058317592347310750433193939758852181078243600632403028308684333467720833040384,
  10130653244351291593363701724915059410751895976191666976694619718937107981033408369021132605827770406375876028019321311875407125013761440393366914895500333007372946661293862944768,
  3113149741985206205379998980738278754343607856345819850985237670063864156748076244885270878901952098367398878017652376736719197382674178912072362763745064013225483883165900595003392,
  3039195973354042330914337663279885816591594516600921577080552151451630529421997351499826011091647249597144470427127425671288620860061153249380864605713887564578694481082081869824,
  12454625098589670380801936619007715165597763706895346196566421179593801302978000801666976886802019638373527644842587341590736622388048953896858983759409659615878605705230944053493760,
  7007908788667712609520734229371033475237901212930593582596831514069699710690478879989032614190141140909957661775662831807963711978882578557634066414333188500541704975470702877735054498855315832832,
  1315033975387107392627824806145259249062056268554038762304156663897495674305241426235509004778672285205442664599600725988541035908284627524331503942417340626251018299384344706141431846436460888071982031363375104,
  9205237827709672325428502075585069261593421430047339140736878405810373626159166626837121950615974638310007151443654421910448813296738098145501634854545693463510054833313141040455840110422899609577547580510830592,
  2220894945574836682968386210122535501185670855847660721932524439161557988017882093094842654676394874674481819701142482676215737674057051678857239430461223934774640770479142237641330316915351888154606802641158889095897934725120 ]

/-- The packed 48 x 24 grid holding only `glider` stamped at offset (26, 12). -/
def loneGlider0 : Nat :=
  9205237827709672325428502075585036843503039547001920279695486559679856492250384249329966583865880140357398616622763030708260850234819584434298620915893993538925701209127188125678509465439289749104666708816166912

/-- The packed grid `loneGlider0` three ticks later. -/
def loneGlider3 : Nat :=
  2220894945574836682968386210122535501185670855799033586359699813447169861224172315612265316955244773519869354212464270383411205762226273258027317296068845851086272684479906720187980666025916480799213423315580337610061890191360

/-! ## The random seeder -/

/-- State of the C library generator: the seed last given to `srand` and the number
of `rand` calls made since. -/
structure Rng where
  seed : Int
  pos : Nat
deriving DecidableEq, Repr

/-- The call `srand(seed)`. -/
def srand (seed : Int) : Rng :=
  { seed := seed, pos := 0 }

/-- The call `rand()`. The generator is the C library's and not part of the sources:
`gen seed i` stands for the value of the `i`-th call after `srand(seed)`. -/
def rand (gen : Int → Nat → Nat) (r : Rng) : Nat × Rng :=
  (gen r.seed r.pos, { r with pos := r.pos + 1 })

/-- What the loops of `seed_cells` update: the grid and the generator. -/
structure SeedState where
  cells : List Nat
  rng : Rng
deriving DecidableEq, Repr

/-- The function `seed_cells`: `cells[y][x] = rand() & 1` for `y` outer, `x` inner. -/
def seed_cells (gen : Int → Nat → Nat) (width height : Nat) (cells : List Nat) (rng : Rng) :
    List Nat × Rng :=
  let s : SeedState := forLoop height (fun y s => forLoop width (fun x (s : SeedState) =>
      ({ cells := writeCell width s.cells y x ((rand gen s.rng).1 &&& 1),
         rng := (rand gen s.rng).2 } : SeedState)) s)
    { cells := cells, rng := rng }
  (s.cells, s.rng)

/-! ## The run loop of `main` -/

/-- The constant `HISTORY_LENGTH`. -/
def HISTORY_LENGTH : Nat := 3

/-- The variables of `main` that the run loop updates. `history` lists the buffers
`history[0]`, ..., `history[HISTORY_LENGTH - 1]`; `rng` is the C library generator. -/
structure RunState where
  cells : List Nat
  history : List (List Nat)
  seed : Int
  ticks : Nat
  rng : Rng
deriving DecidableEq, Repr

/-- Control state of the history loop: still iterating, or left through the `memcmp`
hit at index `i`; both with the history buffers as they are at that point. -/
inductive HistoryLoop where
  | running (history : List (List Nat))
  | hit (i : Nat) (history : List (List Nat))
deriving DecidableEq, Repr

/-- One iteration of `for (int i = 0; i < HISTORY_LENGTH; i++)` in `main`: the
`memcmp` of `cells` with `history[i]`, then the `memcpy` into `history[i]`. -/
def historyStep (cells : List Nat) (i : Nat) : HistoryLoop → HistoryLoop
  | HistoryLoop.hit j history => HistoryLoop.hit j history
  | HistoryLoop.running history =>
    if cells = history.getD i [] then HistoryLoop.hit i history
    else if i < HISTORY_LENGTH - 1 then
      HistoryLoop.running (history.set i (history.getD (i + 1) []))
    else HistoryLoop.running (history.set i cells)

/-- The history loop of `main`. -/
def historyLoop (cells : List Nat) (history : List (List Nat)) : HistoryLoop :=
  forLoop HISTORY_LENGTH (historyStep cells) (HistoryLoop.running history)

/-- What one iteration of `while (true)` in `main` did. -/
inductive Outcome where
  /-- Printed "Game over - all dead." and exited. -/
  | allDead
  /-- Found the input stream closed and exited. -/
  | stdinClosed
  /-- Printed "Game over - stuck in a loop (same as `ticksAgo` ticks ago)" and exited. -/
  | stuckInLoop (ticksAgo : Nat)
  /-- Infinite mode: reseeded the grid and went on; `hit` is `none` after an extinction
  and `some i` after the `memcmp` hit at `history[i]`. -/
  | reseeded (hit : Option Nat)
  /-- Printed the generation and went on to the next iteration. -/
  | rendered (live_cells : Nat) (ticks : Nat)
  /-- Printed the generation and left the loop because `tps == 0`. -/
  | renderedThenStopped (live_cells : Nat) (ticks : Nat)
deriving DecidableEq, Repr

/-- The statements `srand(++seed); seed_cells(width, height, cells); ticks = 0;`. -/
def reseed (gen : Int → Nat → Nat) (width height : Nat) (cells : List Nat)
    (history : List (List Nat)) (seed : Int) : RunState :=
  { cells := (seed_cells gen width height cells (srand (seed + 1))).1,
    history := history,
    seed := seed + 1,
    ticks := 0,
    rng := (seed_cells gen width height cells (srand (seed + 1))).2 }

/-- The body of `while (true)` in `main`. `eof` is what the call `eof()` returns if
this iteration reaches it. -/
def mainLoopBody (gen : Int → Nat → Nat) (width height : Nat) (infinite : Bool) (tps : Int)
    (eof : Bool) (s : RunState) : RunState × Outcome :=
  if (tick width height s.cells).2 = 0 then
    if infinite then
      (reseed gen width height (tick width height s.cells).1 s.history s.seed,
        Outcome.reseeded none)
    else
      ({ s with cells := (tick width height s.cells).1, ticks := s.ticks + 1 }, Outcome.allDead)
  else if eof then
    ({ s with cells := (tick width height s.cells).1, ticks := s.ticks + 1 },
      Outcome.stdinClosed)
  else
    match historyLoop (tick width height s.cells).1 s.history with
    | HistoryLoop.hit i history =>
      if infinite then
        (reseed gen width height (tick width height s.cells).1 history s.seed,
          Outcome.reseeded (some i))
      else
        ({ s with cells := (tick width height s.cells).1, history := history,
                  ticks := s.ticks + 1 },
          Outcome.stuckInLoop (HISTORY_LENGTH - i))
    | HistoryLoop.running history =>
      ({ s with cells := (tick width height s.cells).1, history := history,
                ticks := s.ticks + 1 },
        if tps = 0 then Outcome.renderedThenStopped (tick width height s.cells).2 (s.ticks + 1)
        else Outcome.rendered (tick width height s.cells).2 (s.ticks + 1))

/-- The dimension block of `main`: `width` and `height` as parsed (`-1` when the
option was not given), `ws_col` and `ws_row` the terminal size. `none` is a failed
`assert`. -/
def resolveDimensions (width height ws_col ws_row : Int) : Option (Int × Int) :=
  if width = -1 ∨ height = -1 then
    if (if height < 1 then ws_col else width) > 1 then
      if (if height < 1 then ws_row - 3 else height) > 1 then
        some (if height < 1 then ws_col else width, if height < 1 then ws_row - 3 else height)
      else none
    else none
  else some (width, height)

/-- The number the program reports for a loop exit of the history loop
(`HISTORY_LENGTH - i`), `none` when the loop ran to its end. -/
def loopAge : HistoryLoop → Option Nat
  | HistoryLoop.hit i _ => some (HISTORY_LENGTH - i)
  | HistoryLoop.running _ => none

/-- The history buffers when the history loop is left. -/
def loopHistory : HistoryLoop → List (List Nat)
  | HistoryLoop.hit _ history => history
  | HistoryLoop.running history => history

/-- The grid `seed_cells` produces after `srand(seed)`: cell `k` is the low bit of
draw number `k`. -/
def seededGrid (gen : Int → Nat → Nat) (width height : Nat) (seed : Int) : List Nat :=
  (List.range (width * height)).map (fun k => gen seed k % 2)

/-! ## Fixtures for the history tracker and the run loop -/

/-- The all-dead `width * height` grid. -/
def deadGrid (width height : Nat) : List Nat :=
  List.replicate (width * height) 0

/-- The horizontal blinker on the 5 x 5 grid. -/
def blinkerH : List Nat :=
  gridOfLive 5 5 [(1, 2), (2, 2), (3, 2)]

/-- The vertical blinker on the 5 x 5 grid. -/
def blinkerV : List Nat :=
  gridOfLive 5 5 [(2, 1), (2, 2), (2, 3)]

/-- The ages the history loop reports when it is run on `grids` one after the other,
starting from the buffers `history`. -/
def feedTracker : List (List Nat) → List (List Nat) → List (Option Nat)
  | _, [] => []
  | history, g :: gs =>
    loopAge (historyLoop g history) :: feedTracker (loopHistory (historyLoop g history)) gs

/-- A generator for a 6 x 6 run: every seed draws the block at (1,1)..(2,2); seed 7 adds
the cell (4, 4) and seed 8 the cell (4, 5). -/
def blockGen (seed : Int) (k : Nat) : Nat :=
  if k = 7 ∨ k = 8 ∨ k = 13 ∨ k = 14 then 1
  else if seed = 7 ∧ k = 28 then 1
  else if seed = 8 ∧ k = 34 then 1
  else 0

/-- The 2 x 2 block at (1,1)..(2,2) of the 6 x 6 grid. -/
def blockGrid : List Nat :=
  gridOfLive 6 6 [(1, 1), (2, 1), (1, 2), (2, 2)]

/-- The run state of `main` on entry to the run loop after `srand(7); seed_cells(...)`
on a 6 x 6 grid, with zero-filled history buffers. -/
def blockRun0 : RunState :=
  { cells := seededGrid blockGen 6 6 7,
    history := [deadGrid 6 6, deadGrid 6 6, deadGrid 6 6],
    seed := 7,
    ticks := 0,
    rng := { seed := 7, pos := 36 } }

/-- The state `blockRun0` after `n` iterations of the run loop in infinite mode
(5 ticks per second, input never closed). -/
def blockRun : Nat → RunState
  | 0 => blockRun0
  | n + 1 => (mainLoopBody blockGen 6 6 true 5 false (blockRun n)).1

/-- What iteration `n + 1` of that run did. -/
def blockOutcome (n : Nat) : Outcome :=
  (mainLoopBody blockGen 6 6 true 5 false (blockRun n)).2

/-- A run state on entry to the first iteration of a 5 x 5 shape run (no seed given)
showing the horizontal blinker, with the given contents of the history buffers. -/
def blinkerRun0 (history : List (List Nat)) : RunState :=
  { cells := blinkerH, history := history, seed := -1, ticks := 0, rng := srand 1 }

/-- The history buffers after the history loop has been run on `grids` one after the
other, starting from the buffers `history`. -/
def feedHistory : List (List Nat) → List (List Nat) → List (List Nat)
  | history, [] => history
  | history, g :: gs => feedHistory (loopHistory (historyLoop g history)) gs

/-- A loop check that compares the snapshots in the given order of indices: the age
`HISTORY_LENGTH - i` for the first index `i` of `order` whose snapshot equals `g`. -/
def observeInOrder (order : List Nat) (history : List (List Nat)) (g : List Nat) : Option Nat :=
  (order.find? (fun i => decide (g = history.getD i []))).map (fun i => HISTORY_LENGTH - i)

/-- A finite 6 x 6 shape run (5 ticks per second, input never closed) on entry to the
run loop: four cells in an L, zero-filled history buffers. -/
def cornerRun0 : RunState :=
  { cells := gridOfLive 6 6 [(1, 1), (2, 1), (3, 1), (1, 2)],
    history := [deadGrid 6 6, deadGrid 6 6, deadGrid 6 6],
    seed := -1,
    ticks := 0,
    rng := srand 1 }

/-- The state `cornerRun0` after `n` iterations of the run loop. -/
def cornerRun : Nat → RunState
  | 0 => cornerRun0
  | n + 1 => (mainLoopBody blockGen 6 6 false 5 false (cornerRun n)).1

/-! ## Toroidal translation -/

/-- Offset of the cell that the grid translated by `(a, b)` shows at offset `k`:
the cell `(mod (x - a) width, mod (y - b) height)` for `k = y * width + x`. -/
def shiftIndex (width height : Nat) (a b : Int) (k : Nat) : Nat :=
  cellIndex width (mod (((k / width : Nat) : Int) - b) height)
    (mod (((k % width : Nat) : Int) - a) width)

/-- The grid translated by `(a, b)` on the torus: its cell `(x, y)` is the cell
`(mod (x - a) width, mod (y - b) height)` of `cells`. -/
def shiftGrid (width height : Nat) (a b : Int) (cells : List Nat) : List Nat :=
  (List.range (width * height)).map (fun k => cells.getD (shiftIndex width height a b k) 0)

/-! ## Loop invariants and the closed form of `tick` -/

theorem forLoop_succ {σ : Type} (n : Nat) (body : Nat → σ → σ) (s : σ) :
    forLoop (n + 1) body s = body n (forLoop n body s) := by
  simp [forLoop, List.range_succ, List.foldl_append]

theorem forLoop_induct {σ : Type} (I : Nat → σ → Prop) (n : Nat) (body : Nat → σ → σ) (s : σ)
    (h0 : I 0 s) (hstep : ∀ i, i < n → ∀ t, I i t → I (i + 1) (body i t)) :
    I n (forLoop n body s) := by
  have key : ∀ m, m ≤ n → I m (forLoop m body s) := by
    intro m
    induction m with
    | zero => intro _; simpa [forLoop] using h0
    | succ m ih =>
      intro hm
      rw [forLoop_succ]
      exact hstep m (by omega) _ (ih (by omega))
  exact key n le_rfl

theorem forLoop2_induct {σ : Type} (I : Nat → σ → Prop) (width height : Nat)
    (body : Nat → Nat → σ → σ) (s : σ) (h0 : I 0 s)
    (hstep : ∀ y x, y < height → x < width → ∀ t,
      I (y * width + x) t → I (y * width + x + 1) (body y x t)) :
    I (height * width) (forLoop height (fun y t => forLoop width (fun x u => body y x u) t) s) := by
  refine forLoop_induct (fun r t => I (r * width) t) height _ s (by simpa using h0) ?_
  intro y hy t ht
  have inner := forLoop_induct (fun m u => I (y * width + m) u) width (fun x u => body y x u) t
    (by simpa using ht) (fun x hx u hu => hstep y x hy hx u hu)
  simpa [Nat.succ_mul] using inner

theorem cellIndex_natCast (width y x : Nat) : cellIndex width (y : Int) (x : Int) = y * width + x := by
  unfold cellIndex
  rw [← Int.natCast_mul, ← Int.natCast_add, Int.toNat_natCast]

theorem take_set_succ (l : List Nat) (k v : Nat) (hk : k < l.length) :
    (l.set k v).take (k + 1) = l.take k ++ [v] := by
  induction l generalizing k with
  | nil => simp at hk
  | cons a l ih =>
    cases k with
    | zero => simp
    | succ k =>
      simp only [List.set_cons_succ, List.take_succ_cons, List.cons_append, List.cons.injEq, true_and]
      exact ih k (by simpa using hk)

theorem flat_div (width y x : Nat) (hx : x < width) : (y * width + x) / width = y := by
  have hw : 0 < width := by omega
  rw [Nat.add_comm, Nat.add_mul_div_right _ _ hw, Nat.div_eq_of_lt hx, Nat.zero_add]

theorem flat_mod (width y x : Nat) (hx : x < width) : (y * width + x) % width = x := by
  rw [Nat.add_comm, Nat.add_mul_mod_self_right, Nat.mod_eq_of_lt hx]

theorem newCell_le_one (width height : Nat) (cells : List Nat) (y x : Nat) :
    newCell width height cells y x ≤ 1 := by
  unfold newCell
  split_ifs <;> simp

theorem tickCell_eq (width height : Nat) (cells : List Nat) (y x : Nat) (s : TickState) :
    tickCell width height cells y x s =
      { next := writeCell width s.next y x (newCell width height cells y x),
        live_cells := s.live_cells + newCell width height cells y x } := by
  unfold tickCell newCell
  split_ifs <;> rfl

theorem count_one_concat (l : List Nat) (v : Nat) (hv : v ≤ 1) :
    (l ++ [v]).count 1 = l.count 1 + v := by
  rw [List.count_append, List.count_singleton]
  interval_cases v <;> simp

/-- Invariant of the first loop nest of `tick` when it is about to handle offset `k`. -/
theorem tick_fill (next0 : List Nat) (width height : Nat) (cells : List Nat)
    (hlen : next0.length = width * height) :
    let s := forLoop height
      (fun y s => forLoop width (fun x s => tickCell width height cells y x s) s)
      { next := next0, live_cells := 0 }
    s.next = nextGrid width height cells ∧ s.live_cells = (nextGrid width height cells).count 1 := by
  intro s
  have inv := forLoop2_induct
    (fun k (t : TickState) => t.next.length = width * height ∧
      t.next.take k = (List.range k).map (newCellAt width height cells) ∧
      t.live_cells = ((List.range k).map (newCellAt width height cells)).count 1)
    width height (fun y x t => tickCell width height cells y x t)
    { next := next0, live_cells := 0 } (by simp [hlen]) (by
      intro y x hy hx t ⟨h1, h2, h3⟩
      have hk : y * width + x < t.next.length := by
        rw [h1]
        calc y * width + x < y * width + width := by omega
          _ = width * (y + 1) := by ring
          _ ≤ width * height := Nat.mul_le_mul_left _ hy
      have hv : newCellAt width height cells (y * width + x) = newCell width height cells y x := by
        unfold newCellAt
        rw [flat_div _ _ _ hx, flat_mod _ _ _ hx]
      show (tickCell width height cells y x t).next.length = width * height ∧
        List.take (y * width + x + 1) (tickCell width height cells y x t).next =
          List.map (newCellAt width height cells) (List.range (y * width + x + 1)) ∧
        (tickCell width height cells y x t).live_cells =
          List.count 1 (List.map (newCellAt width height cells) (List.range (y * width + x + 1)))
      rw [tickCell_eq]
      simp only [writeCell, cellIndex_natCast]
      refine ⟨by simp [h1], ?_, ?_⟩
      · rw [take_set_succ _ _ _ hk, h2, List.range_succ, List.map_append, List.map_singleton, hv]
      · rw [List.range_succ, List.map_append, List.map_singleton, count_one_concat _ _ (by
          rw [hv]; exact newCell_le_one _ _ _ _ _), h3, hv])
  obtain ⟨h1, h2, h3⟩ := inv
  have hfull : s.next.take (height * width) = s.next := List.take_of_length_le (by
    show s.next.length ≤ height * width
    rw [show s.next.length = width * height from h1, Nat.mul_comm])
  refine ⟨?_, ?_⟩
  · rw [← hfull]; unfold nextGrid; rw [Nat.mul_comm width height]; exact h2
  · unfold nextGrid; rw [Nat.mul_comm width height]; exact h3

theorem tmod_gt_neg (a d : Int) (hd : 0 < d) : -d < Int.tmod a d := by
  obtain ⟨n, rfl⟩ := Int.eq_ofNat_of_zero_le (le_of_lt hd)
  have hn : 0 < n := by exact_mod_cast hd
  cases a with
  | ofNat m =>
    have : (0 : Int) ≤ Int.tmod (Int.ofNat m) (n : Int) := Int.tmod_nonneg _ (Int.ofNat_nonneg m)
    omega
  | negSucc m =>
    show -(n : Int) < -((m.succ % n : Nat) : Int)
    have := Nat.mod_lt m.succ hn
    omega

theorem mod_eq_emod (a d : Int) (hd : 0 < d) : mod a d = a % d := by
  unfold mod
  have h1 := tmod_gt_neg a d hd
  rw [Int.tmod_eq_emod (by omega) (le_of_lt hd), Int.add_emod_self, Int.tmod_def,
    Int.sub_eq_add_neg, ← Int.mul_neg, Int.add_mul_emod_self_left]

theorem mod_of_lt (x d : Nat) (hx : x < d) : mod (x : Int) (d : Int) = (x : Int) := by
  rw [mod_eq_emod _ _ (by omega)]
  exact Int.emod_eq_of_lt (by omega) (by omega)

theorem copy_fill (width height : Nat) (cells next : List Nat)
    (hc : cells.length = width * height) (hn : next.length = width * height) :
    forLoop height
      (fun y c => forLoop width (fun x c => writeCell width c y x (readCell width next y x)) c)
      cells = next := by
  have inv := forLoop2_induct
    (fun k (c : List Nat) => c.length = width * height ∧ c.take k = next.take k)
    width height (fun y x c => writeCell width c y x (readCell width next y x)) cells
    (by simp [hc]) (by
      intro y x hy hx c ⟨h1, h2⟩
      have hlt : y * width + x < width * height := by
        calc y * width + x < y * width + width := by omega
          _ = width * (y + 1) := by ring
          _ ≤ width * height := Nat.mul_le_mul_left _ hy
      show (writeCell width c y x (readCell width next y x)).length = width * height ∧
        List.take (y * width + x + 1) (writeCell width c y x (readCell width next y x)) =
          List.take (y * width + x + 1) next
      simp only [writeCell, readCell, cellIndex_natCast]
      refine ⟨by simp [h1], ?_⟩
      rw [take_set_succ _ _ _ (by omega), h2, List.take_succ,
        List.getD_eq_getElem?_getD, List.getElem?_eq_getElem (by omega)]
      simp)
  obtain ⟨h1, h2⟩ := inv
  rw [List.take_of_length_le (by rw [h1, Nat.mul_comm]),
    List.take_of_length_le (by rw [hn, Nat.mul_comm])] at h2
  exact h2

theorem nextGrid_length (width height : Nat) (cells : List Nat) :
    (nextGrid width height cells).length = width * height := by
  simp [nextGrid]

/-- Closed form of `tick`, whatever the `alloca` buffer holds on entry. -/
theorem tickFrom_eq (next0 : List Nat) (width height : Nat) (cells : List Nat)
    (hn : next0.length = width * height) (hc : cells.length = width * height) :
    tickFrom next0 width height cells =
      (nextGrid width height cells, (nextGrid width height cells).count 1) := by
  obtain ⟨h1, h2⟩ := tick_fill next0 width height cells hn
  unfold tickFrom
  simp only
  rw [h2, h1, copy_fill width height cells _ hc (nextGrid_length _ _ _)]

theorem tick_eq (width height : Nat) (cells : List Nat) (hc : cells.length = width * height) :
    tick width height cells =
      (nextGrid width height cells, (nextGrid width height cells).count 1) :=
  tickFrom_eq _ width height cells (by simp) hc

/-- The initial bytes of the `alloca` buffer of `tick` do not influence its result. -/
theorem tickFrom_eq_tick (next0 : List Nat) (width height : Nat) (cells : List Nat)
    (hn : next0.length = width * height) (hc : cells.length = width * height) :
    tickFrom next0 width height cells = tick width height cells := by
  rw [tickFrom_eq next0 width height cells hn hc, tick_eq width height cells hc]

theorem readCell_nextGrid (width height : Nat) (cells : List Nat) (y x : Nat)
    (hy : y < height) (hx : x < width) :
    readCell width (nextGrid width height cells) y x = newCell width height cells y x := by
  have hlt : y * width + x < width * height := by
    calc y * width + x < y * width + width := by omega
      _ = width * (y + 1) := by ring
      _ ≤ width * height := Nat.mul_le_mul_left _ hy
  unfold readCell nextGrid
  rw [cellIndex_natCast, List.getD_eq_getElem?_getD, List.getElem?_eq_getElem (by simpa using hlt)]
  simp [newCellAt, flat_div _ _ _ hx, flat_mod _ _ _ hx]

theorem live_neighbors_eq_neighbourSum (width height : Nat) (cells : List Nat) (y x : Nat)
    (hy : y < height) (hx : x < width) :
    live_neighbors width height cells y x = neighbourSum width height cells x y := by
  unfold live_neighbors neighbourSum neighbourOffsets
  simp only [List.map_cons, List.map_nil, List.sum_cons, List.sum_nil, Int.add_zero,
    mod_of_lt x width hx, mod_of_lt y height hy]
  simp only [← Int.sub_eq_add_neg]
  ring

theorem readCell_bit (width : Nat) (cells : List Nat) (hbit : ∀ c ∈ cells, c = 0 ∨ c = 1)
    (y x : Int) : readCell width cells y x = 0 ∨ readCell width cells y x = 1 := by
  unfold readCell
  rw [List.getD_eq_getElem?_getD]
  cases h : cells[cellIndex width y x]? with
  | none => simp
  | some c => simpa using hbit c (List.getElem?_mem h)

theorem tick_returns_count_aux (width height : Nat) (cells : List Nat)
    (hlen : cells.length = width * height) :
    (tick width height cells).2 = (tick width height cells).1.count 1 := by
  rw [tick_eq width height cells hlen]

/-! ## Correctness of the bit-packed evaluation -/

theorem bitAt_eq (B k : Nat) : bitAt B k = B / 2 ^ k % 2 := by
  show (B >>> k) % 2 = B / 2 ^ k % 2
  rw [Nat.shiftRight_eq_div_pow]

theorem encodeBits_cons (c : Nat) (cs : List Nat) :
    encodeBits (c :: cs) = c + 2 * encodeBits cs := rfl

theorem getD_eq_bitAt (cells : List Nat) (hbit : ∀ c ∈ cells, c ≤ 1) (k : Nat) :
    cells.getD k 0 = bitAt (encodeBits cells) k := by
  induction cells generalizing k with
  | nil => simp [bitAt_eq, encodeBits]
  | cons c cs ih =>
    have hc : c ≤ 1 := hbit c (List.mem_cons_self _ _)
    have hcs : ∀ d ∈ cs, d ≤ 1 := fun d hd => hbit d (List.mem_cons_of_mem _ hd)
    cases k with
    | zero =>
      rw [bitAt_eq, encodeBits_cons]
      simp only [List.getD_cons_zero, pow_zero, Nat.div_one]
      omega
    | succ k =>
      rw [List.getD_cons_succ, ih hcs k, bitAt_eq, bitAt_eq, encodeBits_cons, pow_succ,
        Nat.mul_comm (2 ^ k) 2, ← Nat.div_div_eq_div_mul]
      congr 2
      omega

theorem decodeBits_length (n B : Nat) : (decodeBits n B).length = n := by
  simp [decodeBits]

theorem bitAt_le_one (B k : Nat) : bitAt B k ≤ 1 := by
  rw [bitAt_eq]; omega

theorem decodeBits_encodeBits (cells : List Nat) (hbit : ∀ c ∈ cells, c ≤ 1) :
    decodeBits cells.length (encodeBits cells) = cells := by
  apply List.ext_getElem (decodeBits_length _ _)
  intro i h1 h2
  simp only [decodeBits, List.getElem_map, List.getElem_range]
  rw [← getD_eq_bitAt cells hbit i, List.getD_eq_getElem?_getD, List.getElem?_eq_getElem h2]
  rfl

theorem lifeRule_eq (c n : Nat) :
    lifeRule c n = if c ≠ 0 then (if n ≥ 2 ∧ n ≤ 3 then 1 else 0) else (if n = 3 then 1 else 0) := by
  rcases c with _ | c
  · rcases n with _ | _ | _ | _ | n <;> simp [lifeRule]
  · rcases n with _ | _ | _ | _ | n <;> simp [lifeRule]

theorem mod_pred_eq (y h : Nat) (hy : y < h) :
    mod ((y : Int) - 1) (h : Int) = (((y + h - 1) % h : Nat) : Int) := by
  rw [mod_eq_emod _ _ (by omega), Int.natCast_mod, ← Int.add_emod_self]
  congr 1
  omega

theorem mod_succ_eq (y h : Nat) (hy : y < h) :
    mod ((y : Int) + 1) (h : Int) = (((y + 1) % h : Nat) : Int) := by
  rw [mod_eq_emod _ _ (by omega), Int.natCast_mod]
  rfl

theorem readCell_eq_bitAt (width : Nat) (cells : List Nat) (hbit : ∀ c ∈ cells, c ≤ 1)
    (y x : Nat) :
    readCell width cells (y : Int) (x : Int) = bitAt (encodeBits cells) (y * width + x) := by
  unfold readCell
  rw [cellIndex_natCast, getD_eq_bitAt cells hbit]

theorem fastCell_eq_newCellAt (width height : Nat) (cells : List Nat)
    (hbit : ∀ c ∈ cells, c ≤ 1) (k : Nat) (hk : k < width * height) :
    fastCell width height (encodeBits cells) k = newCellAt width height cells k := by
  have hw : 0 < width := by
    rcases Nat.eq_zero_or_pos width with h | h
    · rw [h] at hk; simp at hk
    · exact h
  have hx : k % width < width := Nat.mod_lt _ hw
  have hy : k / width < height := Nat.div_lt_of_lt_mul hk
  have hkk : k / width * width + k % width = k := Nat.div_add_mod' k width
  unfold newCellAt newCell live_neighbors
  simp only [mod_pred_eq _ _ hx, mod_pred_eq _ _ hy, mod_succ_eq _ _ hx, mod_succ_eq _ _ hy,
    readCell_eq_bitAt width cells hbit, hkk]
  rw [← lifeRule_eq]
  rfl

theorem nextGrid_eq_fast (width height : Nat) (cells : List Nat) (hbit : ∀ c ∈ cells, c ≤ 1) :
    nextGrid width height cells =
      (List.range (width * height)).map (fastCell width height (encodeBits cells)) := by
  unfold nextGrid
  apply List.map_congr_left
  intro k hk
  exact (fastCell_eq_newCellAt width height cells hbit k (List.mem_range.mp hk)).symm

theorem strictNat_eq (B : Nat) (f : Nat → Nat) : strictNat B f = f B := by
  cases B <;> rfl

theorem nextGrid_isGrid (width height : Nat) (cells : List Nat) :
    IsGrid width height (nextGrid width height cells) := by
  refine ⟨nextGrid_length _ _ _, ?_⟩
  intro c hc
  unfold nextGrid at hc
  obtain ⟨k, _, rfl⟩ := List.mem_map.mp hc
  exact newCell_le_one _ _ _ _ _

theorem tick_isGrid (width height : Nat) (cells : List Nat) (hg : IsGrid width height cells) :
    IsGrid width height (tick width height cells).1 := by
  rw [tick_eq width height cells hg.1]
  exact nextGrid_isGrid _ _ _

theorem encodeBits_tick (width height : Nat) (cells : List Nat) (hg : IsGrid width height cells) :
    encodeBits (tick width height cells).1 = fastStep width height (encodeBits cells) := by
  rw [tick_eq width height cells hg.1, fastStep, strictNat_eq]
  show encodeBits (nextGrid width height cells) = _
  rw [nextGrid_eq_fast width height cells hg.2]
  rfl

theorem ticks_isGrid (n width height : Nat) (cells : List Nat) (hg : IsGrid width height cells) :
    IsGrid width height (ticks n width height cells).1 := by
  induction n with
  | zero => exact hg
  | succ n ih => exact tick_isGrid _ _ _ ih

theorem encodeBits_ticks (n width height : Nat) (cells : List Nat)
    (hg : IsGrid width height cells) :
    encodeBits (ticks n width height cells).1 = fastSteps n width height (encodeBits cells) := by
  induction n with
  | zero => rfl
  | succ n ih =>
    show encodeBits (tick width height (ticks n width height cells).1).1 = _
    rw [encodeBits_tick _ _ _ (ticks_isGrid n width height cells hg), ih]
    rfl

/-- A run of `n + 1` ticks, read off the packed evaluation. -/
theorem ticks_eq_decodeBits (n width height : Nat) (cells : List Nat)
    (hg : IsGrid width height cells) (B : Nat)
    (hB : fastSteps (n + 1) width height (encodeBits cells) = B) :
    ticks (n + 1) width height cells =
      (decodeBits (width * height) B, (decodeBits (width * height) B).count 1) := by
  have hgrid := ticks_isGrid (n + 1) width height cells hg
  have henc := encodeBits_ticks (n + 1) width height cells hg
  have hdec := decodeBits_encodeBits _ hgrid.2
  rw [hgrid.1, henc, hB] at hdec
  have hcount := (tick_returns_count_aux width height (ticks n width height cells).1
    (ticks_isGrid n width height cells hg).1)
  apply Prod.ext
  · exact hdec.symm
  · show (tick width height (ticks n width height cells).1).2 = _
    rw [hcount]
    show List.count 1 (ticks (n + 1) width height cells).1 = _
    rw [← hdec]

theorem fastSteps_add (m n width height B : Nat) :
    fastSteps (m + n) width height B = fastSteps m width height (fastSteps n width height B) := by
  induction m with
  | zero => simp [fastSteps]
  | succ m ih =>
    rw [Nat.succ_add]
    show fastStep width height (fastSteps (m + n) width height B) = _
    rw [ih]
    rfl

/-! ## Closed form of stamping -/

theorem getD_set (l : List Nat) (i k v : Nat) (hi : i < l.length) :
    (l.set i v).getD k 0 = if i = k then v else l.getD k 0 := by
  simp only [List.getD_eq_getElem?_getD, List.getElem?_set]
  split_ifs <;> simp

theorem flat_lt (width height y x : Nat) (hy : y < height) (hx : x < width) :
    y * width + x < width * height := by
  calc y * width + x < y * width + width := by omega
    _ = width * (y + 1) := by ring
    _ ≤ width * height := Nat.mul_le_mul_left _ hy

theorem flat_inj (width a b y x : Nat) (hb : b < width) (hx : x < width)
    (h : width * a + b = y * width + x) : a = y ∧ b = x := by
  have h1 : a * width + b = y * width + x := by rw [Nat.mul_comm a width]; exact h
  have hd := congrArg (fun t => t / width) h1
  have hm := congrArg (fun t => t % width) h1
  simp only [flat_div _ _ _ hb, flat_div _ _ _ hx, flat_mod _ _ _ hb, flat_mod _ _ _ hx] at hd hm
  exact ⟨hd, hm⟩

/-- Stamping a shape whose box lies inside the grid: every cell of the box receives
the shape's cell, every other cell keeps its value. -/
theorem stampCells_eq (width height : Nat) (sc : ShapeCells) (xo yo : Nat) (cells : List Nat)
    (hlen : cells.length = width * height) (hx : xo + sc.width ≤ width)
    (hy : yo + sc.height ≤ height) :
    stampCells width sc (xo : Int) (yo : Int) cells =
      (List.range (width * height)).map (stampedCell width sc xo yo cells) := by
  have inv := forLoop2_induct
    (fun j (c : List Nat) => c.length = width * height ∧ ∀ k, k < width * height →
      c.getD k 0 =
        if (xo ≤ k % width ∧ k % width < xo + sc.width ∧ yo ≤ k / width ∧
            k / width < yo + sc.height) ∧
            sc.width * (k / width - yo) + (k % width - xo) < j then
          sc.cells.getD (sc.width * (k / width - yo) + (k % width - xo)) 0
        else cells.getD k 0)
    sc.width sc.height
    (fun y x c => writeCell width c ((y : Int) + (yo : Int)) ((x : Int) + (xo : Int))
      (sc.cells.getD (sc.width * y + x) 0))
    cells (by simp [hlen]) (by
      intro y x hy1 hx1 c ⟨h1, h2⟩
      have hidx : cellIndex width ((y : Int) + (yo : Int)) ((x : Int) + (xo : Int)) =
          (y + yo) * width + (x + xo) := by
        rw [← Int.natCast_add, ← Int.natCast_add, cellIndex_natCast]
      have hxw : x + xo < width := by omega
      have hi : (y + yo) * width + (x + xo) < c.length := by
        rw [h1]; exact flat_lt width height _ _ (by omega) hxw
      show (writeCell width c ((y : Int) + (yo : Int)) ((x : Int) + (xo : Int))
          (sc.cells.getD (sc.width * y + x) 0)).length = width * height ∧ _
      simp only [writeCell, hidx]
      refine ⟨by simp [h1], ?_⟩
      intro k hk
      rw [getD_set _ _ _ _ hi]
      by_cases hki : (y + yo) * width + (x + xo) = k
      · rw [if_pos hki, ← hki, flat_div _ _ _ hxw, flat_mod _ _ _ hxw]
        have e1 : y + yo - yo = y := by omega
        have e2 : x + xo - xo = x := by omega
        rw [e1, e2, if_pos ⟨⟨by omega, by omega, by omega, by omega⟩, by
          rw [Nat.mul_comm]; omega⟩]
      · rw [if_neg hki, h2 k hk]
        by_cases hbox : xo ≤ k % width ∧ k % width < xo + sc.width ∧ yo ≤ k / width ∧
            k / width < yo + sc.height
        · have hne : sc.width * (k / width - yo) + (k % width - xo) ≠ y * sc.width + x := by
            intro heq
            obtain ⟨ha, hb⟩ := flat_inj sc.width _ _ _ _ (by omega) hx1 heq
            apply hki
            have hdm := Nat.div_add_mod' k width
            have e1 : y + yo = k / width := by omega
            have e2 : x + xo = k % width := by omega
            rw [e1, e2]; exact hdm
          have hiff : (sc.width * (k / width - yo) + (k % width - xo) < y * sc.width + x + 1) ↔
              (sc.width * (k / width - yo) + (k % width - xo) < y * sc.width + x) := by omega
          simp only [hbox, true_and, hiff, and_self]
        · simp [hbox])
  change (stampCells width sc (xo : Int) (yo : Int) cells).length = width * height ∧
    ∀ k, k < width * height → (stampCells width sc (xo : Int) (yo : Int) cells).getD k 0 = _
    at inv
  obtain ⟨h1, h2⟩ := inv
  apply List.ext_getElem (by rw [h1]; simp)
  intro k hk1 hk2
  have hk : k < width * height := by simpa using hk2
  have hget := h2 k hk
  rw [List.getD_eq_getElem?_getD, List.getElem?_eq_getElem (by rw [h1]; exact hk)] at hget
  simp only [Option.getD_some] at hget
  rw [hget]
  simp only [List.getElem_map, List.getElem_range, stampedCell]
  by_cases hbox : xo ≤ k % width ∧ k % width < xo + sc.width ∧ yo ≤ k / width ∧
      k / width < yo + sc.height
  · have hlt : sc.width * (k / width - yo) + (k % width - xo) < sc.height * sc.width := by
      have := flat_lt sc.width sc.height (k / width - yo) (k % width - xo) (by omega) (by omega)
      rw [Nat.mul_comm sc.width (k / width - yo), Nat.mul_comm sc.height]
      exact this
    simp only [hbox, hlt, and_self, if_true]
  · simp [hbox]

/-! ## The glider and the glider gun -/

theorem decodeBits_isGrid (width height B : Nat) :
    IsGrid width height (decodeBits (width * height) B) :=
  ⟨decodeBits_length _ _, fun c hc => by
    unfold decodeBits at hc
    obtain ⟨k, _, rfl⟩ := List.mem_map.mp hc
    exact bitAt_le_one _ _⟩

theorem readCell_decodeBits (width n B y x : Nat) (h : y * width + x < n) :
    readCell width (decodeBits n B) (y : Int) (x : Int) = bitAt B (y * width + x) := by
  unfold readCell decodeBits
  rw [cellIndex_natCast, List.getD_eq_getElem?_getD, List.getElem?_eq_getElem (by simpa using h)]
  simp

theorem shapeGrid_eq (shape : String) (sc : ShapeCells) (width height xo yo : Nat)
    (hs : lookupShape shape = some sc) (hx : xo + sc.width ≤ width)
    (hy : yo + sc.height ≤ height) :
    shapeGrid shape width height (xo : Int) (yo : Int) =
      (List.range (width * height)).map
        (stampedCell width sc xo yo (List.replicate (width * height) 0)) := by
  unfold shapeGrid stampShape
  rw [hs]
  exact stampCells_eq width height sc xo yo _ (by simp) hx hy

set_option maxRecDepth 100000 in
theorem lookupShape_glider : lookupShape "glider" = some glider := by decide!

set_option maxRecDepth 100000 in
theorem lookupShape_glider_gun : lookupShape "glider_gun" = some glider_gun := by decide!

theorem getD_replicate_zero (n k : Nat) : (List.replicate n 0).getD k 0 = 0 := by
  simp only [List.getD_eq_getElem?_getD, List.getElem?_replicate]
  split_ifs <;> rfl

/-- The all-dead grid with a shape of 0/1 cells stamped inside it, cell by cell. -/
theorem shapeGrid_eq_stampedBit (shape : String) (sc : ShapeCells) (width height xo yo S : Nat)
    (hs : lookupShape shape = some sc) (hbit : ∀ c ∈ sc.cells, c ≤ 1)
    (hS : encodeBits sc.cells = S) (hx : xo + sc.width ≤ width) (hy : yo + sc.height ≤ height) :
    shapeGrid shape width height (xo : Int) (yo : Int) =
      (List.range (width * height)).map (stampedBit width sc.width sc.height S xo yo) := by
  rw [shapeGrid_eq shape sc width height xo yo hs hx hy]
  apply List.map_congr_left
  intro k _
  unfold stampedCell stampedBit
  rw [getD_replicate_zero, getD_eq_bitAt sc.cells hbit, hS]

theorem stampedBit_le_one (width sw sh S xo yo k : Nat) :
    stampedBit width sw sh S xo yo k ≤ 1 := by
  unfold stampedBit
  split_ifs
  · exact bitAt_le_one _ _
  · omega

set_option maxRecDepth 100000 in
theorem gunGrid_eq : gunGrid =
    (List.range (48 * 24)).map (stampedBit 48 36 9 (encodeBits glider_gun.cells) 4 4) :=
  shapeGrid_eq_stampedBit "glider_gun" glider_gun 48 24 4 4 _ lookupShape_glider_gun
    (by decide!) rfl (by decide) (by decide)

set_option maxRecDepth 100000 in
theorem loneGlider_eq : shapeGrid "glider" 48 24 26 12 =
    (List.range (48 * 24)).map (stampedBit 48 3 3 (encodeBits glider.cells) 26 12) :=
  shapeGrid_eq_stampedBit "glider" glider 48 24 26 12 _ lookupShape_glider
    (by decide!) rfl (by decide) (by decide)

theorem gunGrid_isGrid : IsGrid 48 24 gunGrid := by
  rw [gunGrid_eq]
  refine ⟨by simp, fun c hc => ?_⟩
  obtain ⟨k, _, rfl⟩ := List.mem_map.mp hc
  exact stampedBit_le_one _ _ _ _ _ _ _

theorem loneGlider_isGrid : IsGrid 48 24 (shapeGrid "glider" 48 24 26 12) := by
  rw [loneGlider_eq]
  refine ⟨by simp, fun c hc => ?_⟩
  obtain ⟨k, _, rfl⟩ := List.mem_map.mp hc
  exact stampedBit_le_one _ _ _ _ _ _ _

set_option maxRecDepth 100000 in
theorem encodeBits_gunGrid : encodeBits gunGrid = gunOrbit.getD 0 0 := by
  rw [gunGrid_eq]
  decide!

set_option maxRecDepth 100000 in
theorem encodeBits_loneGlider : encodeBits (shapeGrid "glider" 48 24 26 12) = loneGlider0 := by
  rw [loneGlider_eq]
  decide!

theorem gunGrid_eq_decodeBits : gunGrid = decodeBits (48 * 24) (gunOrbit.getD 0 0) := by
  have h := decodeBits_encodeBits gunGrid gunGrid_isGrid.2
  rw [gunGrid_isGrid.1, encodeBits_gunGrid] at h
  exact h.symm

set_option maxRecDepth 100000 in
theorem loneGlider_steps : fastSteps 3 48 24 loneGlider0 = loneGlider3 := by decide!

set_option maxRecDepth 100000 in
theorem gunOrbit_step0 : fastSteps 3 48 24 (gunOrbit.getD 0 0) = gunOrbit.getD 1 0 := by
  decide!

set_option maxRecDepth 100000 in
theorem gunOrbit_step1 : fastSteps 3 48 24 (gunOrbit.getD 1 0) = gunOrbit.getD 2 0 := by
  decide!

set_option maxRecDepth 100000 in
theorem gunOrbit_step2 : fastSteps 3 48 24 (gunOrbit.getD 2 0) = gunOrbit.getD 3 0 := by
  decide!

set_option maxRecDepth 100000 in
theorem gunOrbit_step3 : fastSteps 3 48 24 (gunOrbit.getD 3 0) = gunOrbit.getD 4 0 := by
  decide!

set_option maxRecDepth 100000 in
theorem gunOrbit_step4 : fastSteps 3 48 24 (gunOrbit.getD 4 0) = gunOrbit.getD 5 0 := by
  decide!

set_option maxRecDepth 100000 in
theorem gunOrbit_step5 : fastSteps 3 48 24 (gunOrbit.getD 5 0) = gunOrbit.getD 6 0 := by
  decide!

set_option maxRecDepth 100000 in
theorem gunOrbit_step6 : fastSteps 3 48 24 (gunOrbit.getD 6 0) = gunOrbit.getD 7 0 := by
  decide!

set_option maxRecDepth 100000 in
theorem gunOrbit_step7 : fastSteps 3 48 24 (gunOrbit.getD 7 0) = gunOrbit.getD 8 0 := by
  decide!

set_option maxRecDepth 100000 in
theorem gunOrbit_step8 : fastSteps 3 48 24 (gunOrbit.getD 8 0) = gunOrbit.getD 9 0 := by
  decide!

set_option maxRecDepth 100000 in
theorem gunOrbit_step9 : fastSteps 3 48 24 (gunOrbit.getD 9 0) = gunOrbit.getD 10 0 := by
  decide!

theorem gunOrbit_steps : fastSteps 30 48 24 (gunOrbit.getD 0 0) = gunOrbit.getD 10 0 := by
  have e : (30 : Nat) = 3 + (3 + (3 + (3 + (3 + (3 + (3 + (3 + (3 + 3)))))))) := rfl
  rw [e]
  simp only [fastSteps_add]
  rw [gunOrbit_step0, gunOrbit_step1, gunOrbit_step2, gunOrbit_step3, gunOrbit_step4,
    gunOrbit_step5, gunOrbit_step6, gunOrbit_step7, gunOrbit_step8, gunOrbit_step9]

theorem ticks_gunGrid : ticks 30 48 24 gunGrid =
    (decodeBits (48 * 24) (gunOrbit.getD 10 0),
      (decodeBits (48 * 24) (gunOrbit.getD 10 0)).count 1) := by
  exact ticks_eq_decodeBits 29 48 24 _ gunGrid_isGrid _
    (by rw [encodeBits_gunGrid]; exact gunOrbit_steps)

theorem ticks_loneGlider : ticks 3 48 24 (shapeGrid "glider" 48 24 26 12) =
    (decodeBits (48 * 24) loneGlider3, (decodeBits (48 * 24) loneGlider3).count 1) := by
  exact ticks_eq_decodeBits 2 48 24 _ loneGlider_isGrid _
    (by rw [encodeBits_loneGlider]; exact loneGlider_steps)

set_option maxRecDepth 100000 in
theorem gunOrbit_facts :
    (decodeBits (48 * 24) (gunOrbit.getD 10 0)).count 1 = 41 ∧
    (∀ x, x < 48 → ∀ y, y < 24 → bitAt (gunOrbit.getD 0 0) (y * 48 + x) = 1 →
      bitAt (gunOrbit.getD 10 0) (y * 48 + x) = 1) ∧
    (∀ x, x < 40 → ∀ y, y < 13 → 4 ≤ x → 4 ≤ y → bitAt (gunOrbit.getD 0 0) (y * 48 + x) = 0 →
      bitAt (gunOrbit.getD 10 0) (y * 48 + x) = 0) ∧
    decodeBits (48 * 24) (gunOrbit.getD 10 0) =
      List.zipWith max (decodeBits (48 * 24) (gunOrbit.getD 0 0)) (gridOfLive 48 24 gunGlider) ∧
    (∀ p ∈ gunGlider, bitAt (gunOrbit.getD 0 0) (p.2 * 48 + p.1) = 0) ∧
    decodeBits (48 * 24) loneGlider3 = gridOfLive 48 24 gunGlider := by
  decide!

/-! ## The history loop -/

theorem forLoop_three {σ : Type} (body : Nat → σ → σ) (s : σ) :
    forLoop 3 body s = body 2 (body 1 (body 0 s)) := rfl

/-- The history loop on a window of three buffers, case by case. -/
theorem historyLoop_three (h0 h1 h2 g : List Nat) :
    historyLoop g [h0, h1, h2] =
      if g = h0 then HistoryLoop.hit 0 [h0, h1, h2]
      else if g = h1 then HistoryLoop.hit 1 [h1, h1, h2]
      else if g = h2 then HistoryLoop.hit 2 [h1, h2, h2]
      else HistoryLoop.running [h1, h2, g] := by
  unfold historyLoop
  rw [show HISTORY_LENGTH = 3 from rfl, forLoop_three]
  by_cases e0 : g = h0
  · subst e0
    simp [historyStep]
  · by_cases e1 : g = h1
    · subst e1
      simp [historyStep, e0, HISTORY_LENGTH]
    · by_cases e2 : g = h2
      · subst e2
        simp [historyStep, e0, e1, HISTORY_LENGTH]
      · simp [historyStep, e0, e1, e2, HISTORY_LENGTH]

theorem list_length_three {α : Type} (l : List α) (h : l.length = 3) :
    ∃ a b c, l = [a, b, c] := by
  match l, h with
  | [a, b, c], _ => exact ⟨a, b, c, rfl⟩

/-! ## The random seeder -/

/-- Closed form of `seed_cells`: starting with the generator at position `rng.pos`, cell
`k` receives the low bit of draw `rng.pos + k` and `width * height` draws are used. -/
theorem seed_cells_eq (gen : Int → Nat → Nat) (width height : Nat) (cells : List Nat) (rng : Rng)
    (hlen : cells.length = width * height) :
    seed_cells gen width height cells rng =
      ((List.range (width * height)).map (fun k => gen rng.seed (rng.pos + k) % 2),
        { seed := rng.seed, pos := rng.pos + width * height }) := by
  have inv := forLoop2_induct
    (fun k (t : SeedState) => t.cells.length = width * height ∧
      t.cells.take k = (List.range k).map (fun j => gen rng.seed (rng.pos + j) % 2) ∧
      t.rng = { seed := rng.seed, pos := rng.pos + k })
    width height
    (fun y x (s : SeedState) =>
      ({ cells := writeCell width s.cells y x ((rand gen s.rng).1 &&& 1),
         rng := (rand gen s.rng).2 } : SeedState))
    { cells := cells, rng := rng } (by simp [hlen]) (by
      intro y x hy hx t ⟨h1, h2, h3⟩
      have hk : y * width + x < t.cells.length := by
        rw [h1]; exact flat_lt width height y x hy hx
      show (writeCell width t.cells y x ((rand gen t.rng).1 &&& 1)).length = width * height ∧
        List.take (y * width + x + 1) (writeCell width t.cells y x ((rand gen t.rng).1 &&& 1)) =
          List.map (fun j => gen rng.seed (rng.pos + j) % 2) (List.range (y * width + x + 1)) ∧
        (rand gen t.rng).2 = { seed := rng.seed, pos := rng.pos + (y * width + x + 1) }
      simp only [writeCell, cellIndex_natCast, rand, h3, Nat.and_one_is_mod]
      refine ⟨by simp [h1], ?_, rfl⟩
      rw [take_set_succ _ _ _ hk, h2, List.range_succ, List.map_append, List.map_singleton])
  obtain ⟨h1, h2, h3⟩ := inv
  rw [List.take_of_length_le (by rw [h1, Nat.mul_comm])] at h2
  unfold seed_cells
  simp only
  rw [h2, h3, Nat.mul_comm height width]

theorem seed_cells_srand (gen : Int → Nat → Nat) (width height : Nat) (cells : List Nat)
    (seed : Int) (hlen : cells.length = width * height) :
    seed_cells gen width height cells (srand seed) =
      (seededGrid gen width height seed, { seed := seed, pos := width * height }) := by
  rw [seed_cells_eq gen width height cells (srand seed) hlen]
  simp [srand, seededGrid]

theorem tick_length (width height : Nat) (cells : List Nat)
    (hlen : cells.length = width * height) :
    (tick width height cells).1.length = width * height := by
  rw [tick_eq width height cells hlen]
  exact nextGrid_length _ _ _

/-! ## One iteration of the run loop -/

/-- The iteration in finite mode with no end of input, on a window of three buffers. -/
theorem mainLoopBody_finite (gen : Int → Nat → Nat) (width height : Nat) (tps : Int)
    (s : RunState) (h0 h1 h2 : List Nat) (hs : s.history = [h0, h1, h2]) :
    mainLoopBody gen width height false tps false s =
      if (tick width height s.cells).2 = 0 then
        ({ s with cells := (tick width height s.cells).1, ticks := s.ticks + 1 }, Outcome.allDead)
      else if (tick width height s.cells).1 = h0 then
        ({ s with cells := (tick width height s.cells).1, history := [h0, h1, h2],
                  ticks := s.ticks + 1 }, Outcome.stuckInLoop 3)
      else if (tick width height s.cells).1 = h1 then
        ({ s with cells := (tick width height s.cells).1, history := [h1, h1, h2],
                  ticks := s.ticks + 1 }, Outcome.stuckInLoop 2)
      else if (tick width height s.cells).1 = h2 then
        ({ s with cells := (tick width height s.cells).1, history := [h1, h2, h2],
                  ticks := s.ticks + 1 }, Outcome.stuckInLoop 1)
      else
        ({ s with cells := (tick width height s.cells).1,
                  history := [h1, h2, (tick width height s.cells).1],
                  ticks := s.ticks + 1 },
          if tps = 0 then Outcome.renderedThenStopped (tick width height s.cells).2 (s.ticks + 1)
          else Outcome.rendered (tick width height s.cells).2 (s.ticks + 1)) := by
  unfold mainLoopBody
  rw [hs, historyLoop_three]
  split_ifs <;> simp_all [HISTORY_LENGTH]

/-- The iteration in infinite mode with no end of input, on a window of three buffers. -/
theorem mainLoopBody_infinite (gen : Int → Nat → Nat) (width height : Nat) (tps : Int)
    (s : RunState) (h0 h1 h2 : List Nat) (hs : s.history = [h0, h1, h2]) :
    mainLoopBody gen width height true tps false s =
      if (tick width height s.cells).2 = 0 then
        (reseed gen width height (tick width height s.cells).1 [h0, h1, h2] s.seed,
          Outcome.reseeded none)
      else if (tick width height s.cells).1 = h0 then
        (reseed gen width height (tick width height s.cells).1 [h0, h1, h2] s.seed,
          Outcome.reseeded (some 0))
      else if (tick width height s.cells).1 = h1 then
        (reseed gen width height (tick width height s.cells).1 [h1, h1, h2] s.seed,
          Outcome.reseeded (some 1))
      else if (tick width height s.cells).1 = h2 then
        (reseed gen width height (tick width height s.cells).1 [h1, h2, h2] s.seed,
          Outcome.reseeded (some 2))
      else
        ({ s with cells := (tick width height s.cells).1,
                  history := [h1, h2, (tick width height s.cells).1],
                  ticks := s.ticks + 1 },
          if tps = 0 then Outcome.renderedThenStopped (tick width height s.cells).2 (s.ticks + 1)
          else Outcome.rendered (tick width height s.cells).2 (s.ticks + 1)) := by
  unfold mainLoopBody
  rw [hs, historyLoop_three]
  split_ifs <;> simp_all

/-- The iteration when the input stream has been closed. -/
theorem mainLoopBody_eof (gen : Int → Nat → Nat) (width height : Nat) (infinite : Bool)
    (tps : Int) (s : RunState) :
    mainLoopBody gen width height infinite tps true s =
      if (tick width height s.cells).2 = 0 then
        if infinite then
          (reseed gen width height (tick width height s.cells).1 s.history s.seed,
            Outcome.reseeded none)
        else
          ({ s with cells := (tick width height s.cells).1, ticks := s.ticks + 1 },
            Outcome.allDead)
      else
        ({ s with cells := (tick width height s.cells).1, ticks := s.ticks + 1 },
          Outcome.stdinClosed) := by
  unfold mainLoopBody
  simp

/-! ## Index bounds -/

theorem cellIndex_lt (width height : Nat) (yy xx : Int) (hy0 : 0 ≤ yy) (hy1 : yy < height)
    (hx0 : 0 ≤ xx) (hx1 : xx < width) : cellIndex width yy xx < width * height := by
  obtain ⟨y, rfl⟩ := Int.eq_ofNat_of_zero_le hy0
  obtain ⟨x, rfl⟩ := Int.eq_ofNat_of_zero_le hx0
  rw [cellIndex_natCast]
  exact flat_lt width height y x (by exact_mod_cast hy1) (by exact_mod_cast hx1)

theorem mod_range (a d : Int) (hd : 0 < d) : 0 ≤ mod a d ∧ mod a d < d := by
  rw [mod_eq_emod _ _ hd]
  exact ⟨Int.emod_nonneg _ (by omega), Int.emod_lt_of_pos _ hd⟩

/-! ## Sequences of loop checks -/

/-- A loop check that reports nothing: the grid differs from all three snapshots and
the window is shifted. -/
theorem historyLoop_continue (a b c g : List Nat)
    (h : loopAge (historyLoop g [a, b, c]) = none) :
    g ≠ a ∧ g ≠ b ∧ g ≠ c ∧ loopHistory (historyLoop g [a, b, c]) = [b, c, g] := by
  rw [historyLoop_three] at h ⊢
  split_ifs at h ⊢ with e0 e1 e2
  · simp [loopAge] at h
  · simp [loopAge] at h
  · simp [loopAge] at h
  · exact ⟨e0, e1, e2, rfl⟩

theorem feedHistory_distinct (gs : List (List Nat)) :
    ∀ a b c : List Nat, c ≠ a → c ≠ b → gs ≠ [] →
      (∀ v ∈ feedTracker [a, b, c] gs, v = none) →
      ∃ x y z, feedHistory [a, b, c] gs = [x, y, z] ∧ x ≠ y ∧ x ≠ z ∧ y ≠ z := by
  induction gs with
  | nil => intro a b c _ _ h; exact absurd rfl h
  | cons g rest ih =>
    intro a b c hca hcb _ hall
    have h1 : loopAge (historyLoop g [a, b, c]) = none :=
      hall _ (by simp [feedTracker])
    obtain ⟨ga, gb, gc, hw⟩ := historyLoop_continue a b c g h1
    have hrest : ∀ v ∈ feedTracker [b, c, g] rest, v = none := by
      intro v hv
      apply hall
      simp only [feedTracker, List.mem_cons]
      right
      rw [hw]
      exact hv
    show ∃ x y z, feedHistory (loopHistory (historyLoop g [a, b, c])) rest = [x, y, z] ∧ _
    rw [hw]
    cases rest with
    | nil => exact ⟨b, c, g, rfl, fun h => hcb h.symm, fun h => gb h.symm, fun h => gc h.symm⟩
    | cons g2 rest2 => exact ih b c g gb gc (by simp) hrest

theorem perm_three_cases (order : List Nat) (h : order.Perm [0, 1, 2]) :
    order = [0, 1, 2] ∨ order = [1, 0, 2] ∨ order = [2, 1, 0] ∨ order = [1, 2, 0] ∨
      order = [2, 0, 1] ∨ order = [0, 2, 1] := by
  have hl := h.length_eq
  have hn := h.nodup_iff.mpr (by decide)
  have hm : ∀ v ∈ order, v = 0 ∨ v = 1 ∨ v = 2 := fun v hv => by
    have := h.mem_iff.mp hv
    simpa using this
  match order, hl with
  | [p, q, r], _ =>
    have hp := hm p (by simp)
    have hq := hm q (by simp)
    have hr := hm r (by simp)
    simp only [List.nodup_cons, List.mem_cons, List.mem_singleton, List.not_mem_nil, or_false,
      not_or, List.nodup_nil, and_true, not_false_eq_true] at hn
    rcases hp with rfl | rfl | rfl <;> rcases hq with rfl | rfl | rfl <;>
      rcases hr with rfl | rfl | rfl <;> simp_all

/-! ## Runs of the loop -/

/-- An iteration that rendered and went on: the grid was ticked and appended to the
window. -/
theorem mainLoopBody_rendered (gen : Int → Nat → Nat) (width height : Nat) (infinite : Bool)
    (tps : Int) (eof : Bool) (s s1 : RunState) (a b c : List Nat) (n t : Nat)
    (hs : s.history = [a, b, c])
    (hr : mainLoopBody gen width height infinite tps eof s = (s1, Outcome.rendered n t)) :
    s1.cells = (tick width height s.cells).1 ∧
      s1.history = [b, c, (tick width height s.cells).1] := by
  cases eof with
  | true =>
    rw [mainLoopBody_eof] at hr
    split_ifs at hr <;> simp at hr
  | false =>
    cases infinite with
    | true =>
      rw [mainLoopBody_infinite gen width height tps s a b c hs] at hr
      split_ifs at hr <;> simp at hr
      all_goals (obtain ⟨rfl, _⟩ := hr; exact ⟨rfl, rfl⟩)
    | false =>
      rw [mainLoopBody_finite gen width height tps s a b c hs] at hr
      split_ifs at hr <;> simp at hr
      all_goals (obtain ⟨rfl, _⟩ := hr; exact ⟨rfl, rfl⟩)

/-- An iteration that reported a loop: which snapshot the ticked grid equals. -/
theorem mainLoopBody_loop (gen : Int → Nat → Nat) (width height : Nat) (infinite : Bool)
    (tps : Int) (eof : Bool) (s : RunState) (a b c : List Nat) (hs : s.history = [a, b, c])
    (j : Nat)
    (hr : (mainLoopBody gen width height infinite tps eof s).2 = Outcome.stuckInLoop j ∨
      ∃ i, (mainLoopBody gen width height infinite tps eof s).2 = Outcome.reseeded (some i) ∧
        j = HISTORY_LENGTH - i) :
    (j = 3 ∧ (tick width height s.cells).1 = a) ∨ (j = 2 ∧ (tick width height s.cells).1 = b) ∨
      (j = 1 ∧ (tick width height s.cells).1 = c) := by
  cases eof with
  | true =>
    rw [mainLoopBody_eof] at hr
    split_ifs at hr <;> simp at hr
  | false =>
    cases infinite with
    | true =>
      rw [mainLoopBody_infinite gen width height tps s a b c hs] at hr
      split_ifs at hr <;> simp_all [HISTORY_LENGTH]
    | false =>
      rw [mainLoopBody_finite gen width height tps s a b c hs] at hr
      split_ifs at hr <;> simp_all [HISTORY_LENGTH]

theorem ticks_succ_fst (n width height : Nat) (cells : List Nat) :
    (ticks (n + 1) width height cells).1 = (tick width height (ticks n width height cells).1).1 :=
  rfl

theorem ticks_add_fst (m j width height : Nat) (cells : List Nat) :
    (ticks (m + j) width height cells).1 =
      (ticks m width height (ticks j width height cells).1).1 := by
  induction m with
  | zero => simp [ticks]
  | succ m ih =>
    rw [Nat.succ_add, ticks_succ_fst, ih, ticks_succ_fst]

theorem ticks_succ_fst' (n width height : Nat) (cells : List Nat) :
    (ticks (n + 1) width height cells).1 =
      (ticks n width height (tick width height cells).1).1 := by
  have := ticks_add_fst n 1 width height cells
  simpa [ticks] using this

/-! ## Translation invariance -/

theorem mod_mod_sub (u v d : Int) (hd : 0 < d) : mod (mod u d - v) d = mod (u - v) d := by
  rw [mod_eq_emod _ _ hd, mod_eq_emod _ _ hd, mod_eq_emod _ _ hd, Int.sub_eq_add_neg,
    Int.emod_add_emod, ← Int.sub_eq_add_neg]

theorem mod_shift_pred (u v d : Int) (hd : 0 < d) :
    mod (mod (u - 1) d - v) d = mod (mod (u - v) d - 1) d := by
  rw [mod_mod_sub _ _ _ hd, mod_mod_sub _ _ _ hd]
  congr 1
  ring

theorem mod_shift_succ (u v d : Int) (hd : 0 < d) :
    mod (mod (u + 1) d - v) d = mod (mod (u - v) d + 1) d := by
  have h := mod_mod_sub (u - v) (-1) d hd
  rw [mod_mod_sub _ _ _ hd]
  rw [show mod (u - v) d + 1 = mod (u - v) d - -1 by ring, h]
  congr 1
  ring

theorem shiftGrid_length (width height : Nat) (a b : Int) (cells : List Nat) :
    (shiftGrid width height a b cells).length = width * height := by
  simp [shiftGrid]

/-- Reading the translated grid at a position inside the grid. -/
theorem readCell_shiftGrid (width height : Nat) (a b : Int) (cells : List Nat) (yy xx : Int)
    (hy0 : 0 ≤ yy) (hy1 : yy < height) (hx0 : 0 ≤ xx) (hx1 : xx < width) :
    readCell width (shiftGrid width height a b cells) yy xx =
      readCell width cells (mod (yy - b) height) (mod (xx - a) width) := by
  obtain ⟨y, rfl⟩ := Int.eq_ofNat_of_zero_le hy0
  obtain ⟨x, rfl⟩ := Int.eq_ofNat_of_zero_le hx0
  have hy : y < height := by exact_mod_cast hy1
  have hx : x < width := by exact_mod_cast hx1
  have hlt := flat_lt width height y x hy hx
  unfold shiftGrid
  conv_lhs => unfold readCell
  rw [cellIndex_natCast, List.getD_eq_getElem?_getD,
    List.getElem?_eq_getElem (by simpa using hlt)]
  simp only [List.getElem_map, List.getElem_range, Option.getD_some, shiftIndex,
    flat_div _ _ _ hx, flat_mod _ _ _ hx]
  rfl

theorem newCell_shiftGrid (width height : Nat) (a b : Int) (cells : List Nat)
    (y x y1 x1 : Nat) (hy : y < height) (hx : x < width)
    (ey : (y1 : Int) = mod ((y : Int) - b) height) (ex : (x1 : Int) = mod ((x : Int) - a) width) :
    newCell width height (shiftGrid width height a b cells) y x =
      newCell width height cells y1 x1 := by
  have hw : (0 : Int) < width := by omega
  have hh : (0 : Int) < height := by omega
  have rx := mod_range
  have r := readCell_shiftGrid width height a b cells
  have e : ∀ yy xx : Int, 0 ≤ yy ∧ yy < height → 0 ≤ xx ∧ xx < width →
      readCell width (shiftGrid width height a b cells) yy xx =
        readCell width cells (mod (yy - b) height) (mod (xx - a) width) :=
    fun yy xx hyy hxx => r yy xx hyy.1 hyy.2 hxx.1 hxx.2
  have cy : 0 ≤ (y : Int) ∧ (y : Int) < height := by omega
  have cx : 0 ≤ (x : Int) ∧ (x : Int) < width := by omega
  unfold newCell live_neighbors
  simp only [e _ _ (rx _ _ hh) (rx _ _ hw), e _ _ (rx _ _ hh) cx, e _ _ cy (rx _ _ hw),
    e _ _ cy cx, mod_shift_pred _ _ _ hh, mod_shift_pred _ _ _ hw, mod_shift_succ _ _ _ hh,
    mod_shift_succ _ _ _ hw, ← ey, ← ex]

theorem nextGrid_shiftGrid (width height : Nat) (a b : Int) (cells : List Nat) :
    nextGrid width height (shiftGrid width height a b cells) =
      shiftGrid width height a b (nextGrid width height cells) := by
  unfold nextGrid
  conv_rhs => unfold shiftGrid
  apply List.map_congr_left
  intro k hk
  have hk' : k < width * height := List.mem_range.mp hk
  have hw : 0 < width := by
    rcases Nat.eq_zero_or_pos width with h | h
    · rw [h] at hk'; simp at hk'
    · exact h
  have hx : k % width < width := Nat.mod_lt _ hw
  have hy : k / width < height := Nat.div_lt_of_lt_mul hk'
  have hh : 0 < height := Nat.lt_of_le_of_lt (Nat.zero_le _) hy
  have hwI : (0 : Int) < width := by omega
  have hhI : (0 : Int) < height := by omega
  obtain ⟨hy0, hy1⟩ := mod_range (((k / width : Nat) : Int) - b) height hhI
  obtain ⟨hx0, hx1⟩ := mod_range (((k % width : Nat) : Int) - a) width hwI
  obtain ⟨y1, ey⟩ := Int.eq_ofNat_of_zero_le hy0
  obtain ⟨x1, ex⟩ := Int.eq_ofNat_of_zero_le hx0
  have hy1' : y1 < height := by omega
  have hx1' : x1 < width := by omega
  have hread := readCell_nextGrid width height cells y1 x1 hy1' hx1'
  unfold readCell nextGrid at hread
  show newCellAt width height (shiftGrid width height a b cells) k = _
  unfold newCellAt shiftIndex
  rw [newCell_shiftGrid width height a b cells _ _ y1 x1 hy hx ey.symm ex.symm, ey, ex]
  exact hread.symm

theorem count_one_map_range (f : Nat → Nat) (n : Nat) :
    ((List.range n).map f).count 1 = ∑ k ∈ Finset.range n, if f k = 1 then 1 else 0 := by
  induction n with
  | zero => simp
  | succ n ih =>
    rw [List.range_succ, List.map_append, List.count_append, ih, Finset.sum_range_succ,
      List.map_singleton, List.count_singleton]
    simp

theorem list_eq_map_getD (cells : List Nat) :
    cells = (List.range cells.length).map (fun k => cells.getD k 0) := by
  apply List.ext_getElem (by simp)
  intro i h1 h2
  simp [List.getD_eq_getElem?_getD, List.getElem?_eq_getElem h1]

theorem shiftIndex_lt (width height : Nat) (a b : Int) (k : Nat) (hk : k < width * height) :
    shiftIndex width height a b k < width * height := by
  have hw : 0 < width := by
    rcases Nat.eq_zero_or_pos width with h | h
    · rw [h] at hk; simp at hk
    · exact h
  have hh : 0 < height := by
    rcases Nat.eq_zero_or_pos height with h | h
    · rw [h] at hk; simp at hk
    · exact h
  obtain ⟨hy0, hy1⟩ := mod_range (((k / width : Nat) : Int) - b) height (by omega)
  obtain ⟨hx0, hx1⟩ := mod_range (((k % width : Nat) : Int) - a) width (by omega)
  exact cellIndex_lt width height _ _ hy0 hy1 hx0 hx1

theorem shiftIndex_inv (width height : Nat) (a b : Int) (k : Nat) (hk : k < width * height) :
    shiftIndex width height (-a) (-b) (shiftIndex width height a b k) = k := by
  have hw : 0 < width := by
    rcases Nat.eq_zero_or_pos width with h | h
    · rw [h] at hk; simp at hk
    · exact h
  have hx : k % width < width := Nat.mod_lt _ hw
  have hy : k / width < height := Nat.div_lt_of_lt_mul hk
  have hh : 0 < height := Nat.lt_of_le_of_lt (Nat.zero_le _) hy
  have hwI : (0 : Int) < width := by omega
  have hhI : (0 : Int) < height := by omega
  obtain ⟨hy0, hy1⟩ := mod_range (((k / width : Nat) : Int) - b) height hhI
  obtain ⟨hx0, hx1⟩ := mod_range (((k % width : Nat) : Int) - a) width hwI
  obtain ⟨y1, ey⟩ := Int.eq_ofNat_of_zero_le hy0
  obtain ⟨x1, ex⟩ := Int.eq_ofNat_of_zero_le hx0
  have hx1' : x1 < width := by omega
  have e1 : shiftIndex width height a b k = y1 * width + x1 := by
    unfold shiftIndex
    rw [ey, ex, cellIndex_natCast]
  rw [e1]
  unfold shiftIndex
  rw [flat_div _ _ _ hx1', flat_mod _ _ _ hx1', ← ey, ← ex, mod_mod_sub _ _ _ hhI,
    mod_mod_sub _ _ _ hwI]
  have e2 : ((k / width : Nat) : Int) - b - -b = ((k / width : Nat) : Int) := by ring
  have e3 : ((k % width : Nat) : Int) - a - -a = ((k % width : Nat) : Int) := by ring
  rw [e2, e3, mod_of_lt _ _ hy, mod_of_lt _ _ hx, cellIndex_natCast]
  exact Nat.div_add_mod' k width

/-- Translating a grid does not change how many of its cells are 1. -/
theorem count_one_shiftGrid (width height : Nat) (a b : Int) (cells : List Nat)
    (hlen : cells.length = width * height) :
    (shiftGrid width height a b cells).count 1 = cells.count 1 := by
  conv_rhs => rw [list_eq_map_getD cells, hlen]
  unfold shiftGrid
  rw [count_one_map_range, count_one_map_range]
  apply Finset.sum_nbij' (shiftIndex width height a b) (shiftIndex width height (-a) (-b))
  · intro k hk
    exact Finset.mem_range.mpr (shiftIndex_lt _ _ _ _ _ (Finset.mem_range.mp hk))
  · intro k hk
    exact Finset.mem_range.mpr (shiftIndex_lt _ _ _ _ _ (Finset.mem_range.mp hk))
  · intro k hk
    exact shiftIndex_inv _ _ _ _ _ (Finset.mem_range.mp hk)
  · intro k hk
    have := shiftIndex_inv width height (-a) (-b) k (Finset.mem_range.mp hk)
    rw [neg_neg, neg_neg] at this
    exact this
  · intro k _
    rfl

/-! ## The transition engine -/

/-- C1: for a `width * height` grid of 0/1 cells, `tick` leaves the grid in which cell
`(x, y)` is 1 exactly when the old cell was 1 and `n` is 2 or 3, or the old cell
was 0 and `n` is 3 (and is 0 otherwise), where `n` is the sum of the old grid over
the eight wrapped neighbour positions; the result does not depend on what the
scratch buffer `next` held, and only the old grid is read. -/
theorem tick_applies_rule (width height : Nat) (cells : List Nat)
    (hlen : cells.length = width * height)
    (hbit : ∀ c ∈ cells, c = 0 ∨ c = 1) :
    (tick width height cells).1.length = width * height ∧
    (∀ next0 : List Nat, next0.length = width * height →
      tickFrom next0 width height cells = tick width height cells) ∧
    ∀ x y, x < width → y < height →
      (readCell width (tick width height cells).1 y x = 0 ∨
        readCell width (tick width height cells).1 y x = 1) ∧
      (readCell width (tick width height cells).1 y x = 1 ↔
        (readCell width cells y x = 1 ∧
          (neighbourSum width height cells x y = 2 ∨ neighbourSum width height cells x y = 3)) ∨
        (readCell width cells y x = 0 ∧ neighbourSum width height cells x y = 3)) := by
  refine ⟨?_, fun next0 hn => tickFrom_eq_tick next0 width height cells hn hlen, ?_⟩
  · rw [tick_eq width height cells hlen]; exact nextGrid_length _ _ _
  · intro x y hx hy
    rw [tick_eq width height cells hlen]
    simp only [readCell_nextGrid width height cells y x hy hx]
    rw [← live_neighbors_eq_neighbourSum width height cells y x hy hx]
    have hold := readCell_bit width cells hbit y x
    unfold newCell
    constructor
    · split_ifs <;> simp
    · rcases hold with h0 | h1
      · rw [h0]; simp
      · rw [h1]
        simp only [ne_eq, one_ne_zero, not_false_eq_true, if_true, true_and, false_and, or_false]
        constructor
        · intro h
          by_contra hc
          rw [if_neg (by omega)] at h
          exact absurd h (by decide)
        · intro h
          rw [if_pos (by omega)]

/-- Witness for C1: the 3 x 3 grid with a vertical bar in the middle column. -/
theorem tick_applies_rule_witness :
    [0, 1, 0, 0, 1, 0, 0, 1, 0].length = 3 * 3 ∧
    ∀ x y : Nat, x < 3 → y < 3 →
      (readCell 3 (tick 3 3 [0, 1, 0, 0, 1, 0, 0, 1, 0]).1 y x = 1 ↔
        (readCell 3 [0, 1, 0, 0, 1, 0, 0, 1, 0] y x = 1 ∧
          (neighbourSum 3 3 [0, 1, 0, 0, 1, 0, 0, 1, 0] x y = 2 ∨
            neighbourSum 3 3 [0, 1, 0, 0, 1, 0, 0, 1, 0] x y = 3)) ∨
        (readCell 3 [0, 1, 0, 0, 1, 0, 0, 1, 0] y x = 0 ∧
          neighbourSum 3 3 [0, 1, 0, 0, 1, 0, 0, 1, 0] x y = 3)) :=
  ⟨by decide, fun x y hx hy =>
    ((tick_applies_rule 3 3 [0, 1, 0, 0, 1, 0, 0, 1, 0] (by decide) (by decide)).2.2 x y hx hy).2⟩

/-- C2: the integer `tick` returns is the number of cells equal to 1 in the grid
it leaves behind, hence at most `width * height`. -/
theorem tick_returns_live_count (width height : Nat) (cells : List Nat)
    (hlen : cells.length = width * height) :
    (tick width height cells).2 = (tick width height cells).1.count 1 ∧
    (tick width height cells).2 ≤ width * height := by
  rw [tick_eq width height cells hlen]
  refine ⟨rfl, ?_⟩
  calc (nextGrid width height cells).count 1 ≤ (nextGrid width height cells).length :=
        List.count_le_length _ _
    _ = width * height := nextGrid_length _ _ _

/-- Witness for C2: a 2 x 2 grid with three live cells, where every cell has 3 or more
live neighbours counted with wrap-around. -/
theorem tick_returns_live_count_witness :
    [1, 1, 1, 0].length = 2 * 2 ∧
    (tick 2 2 [1, 1, 1, 0]).2 = (tick 2 2 [1, 1, 1, 0]).1.count 1 ∧
    (tick 2 2 [1, 1, 1, 0]).2 ≤ 2 * 2 :=
  ⟨by decide, tick_returns_live_count 2 2 [1, 1, 1, 0] (by decide)⟩

/-- C10: for a positive divisor, `mod` is unchanged by adding any multiple of the
divisor to its argument (and is the non-negative remainder), so the wrapped cell
address of `(x + k * width, y + k * height)` is that of `(x, y)` in every grid. -/
theorem mod_add_mul_divisor (a k d : Int) (hd : 0 < d) :
    mod (a + k * d) d = mod a d ∧ (0 ≤ mod a d ∧ mod a d < d) ∧
    ∀ (width height : Nat) (cells : List Nat) (x y : Int), 0 < width → 0 < height →
      cellIndex width (mod (y + k * height) height) (mod (x + k * width) width) =
        cellIndex width (mod y height) (mod x width) ∧
      readCell width cells (mod (y + k * height) height) (mod (x + k * width) width) =
        readCell width cells (mod y height) (mod x width) := by
  have key : ∀ (b e : Int), 0 < e → mod (b + k * e) e = mod b e := by
    intro b e he
    rw [mod_eq_emod _ _ he, mod_eq_emod _ _ he, Int.add_mul_emod_self]
  refine ⟨key a d hd, ?_, ?_⟩
  · rw [mod_eq_emod _ _ hd]
    exact ⟨Int.emod_nonneg _ (by omega), Int.emod_lt_of_pos _ hd⟩
  · intro width height cells x y hw hh
    rw [key x width (by exact_mod_cast hw), key y height (by exact_mod_cast hh)]
    exact ⟨rfl, rfl⟩

/-- Witness for C10: `a = -7`, `k = -2`, `d = 5`, where C's `%` yields negative remainders. -/
theorem mod_add_mul_divisor_witness :
    (0 : Int) < 5 ∧ mod (-7 + -2 * 5) 5 = mod (-7) 5 ∧ mod (-7) 5 = 3 :=
  ⟨by decide, (mod_add_mul_divisor (-7) (-2) 5 (by decide)).1, by decide⟩


/-! ## The catalog shapes as regression fixtures -/

set_option maxRecDepth 100000 in
/-- C8: on the 8 x 8 grid that is all dead except `glider` stamped at offset (0, 0),
one tick leaves exactly the live cells (0,1), (2,1), (1,2), (2,2), (1,3), four ticks
leave exactly the grid with `glider` stamped at offset (1, 1), and each of the four
ticks returns 5. -/
theorem glider_four_ticks :
    shapeGrid "glider" 8 8 0 0 = gridOfLive 8 8 [(1, 0), (2, 1), (0, 2), (1, 2), (2, 2)] ∧
    ticks 1 8 8 (shapeGrid "glider" 8 8 0 0) =
      (gridOfLive 8 8 [(0, 1), (2, 1), (1, 2), (2, 2), (1, 3)], 5) ∧
    (ticks 2 8 8 (shapeGrid "glider" 8 8 0 0)).2 = 5 ∧
    (ticks 3 8 8 (shapeGrid "glider" 8 8 0 0)).2 = 5 ∧
    ticks 4 8 8 (shapeGrid "glider" 8 8 0 0) = (shapeGrid "glider" 8 8 1 1, 5) := by
  have hg : IsGrid 8 8 (shapeGrid "glider" 8 8 0 0) := by
    unfold IsGrid
    decide!
  have h1 := ticks_eq_decodeBits 0 8 8 _ hg 33948928 (by decide!)
  have h2 := ticks_eq_decodeBits 1 8 8 _ hg 100992000 (by decide!)
  have h3 := ticks_eq_decodeBits 2 8 8 _ hg 101450240 (by decide!)
  have h4 := ticks_eq_decodeBits 3 8 8 _ hg 235406336 (by decide!)
  rw [h1, h2, h3, h4]
  refine ⟨by decide!, by decide!, by decide!, by decide!, by decide!⟩

set_option maxRecDepth 100000 in
/-- C9: the catalog shape `glider_gun` is a 36 x 9 bitmap of 0/1 cells with exactly 36
live cells. On the 48 x 24 grid that is all dead except this shape stamped at offset
(4, 4), the 30th tick returns 41; every cell alive in the stamped gun is alive again;
every cell of the gun's 36 x 9 region that was dead is dead; the grid is the stamped
gun plus exactly the five cells `gunGlider`, which were dead, lie outside the gun's
region and form the catalog glider (stamped at (26, 12) and ticked three times). -/
theorem glider_gun_period_30 :
    lookupShape "glider_gun" = some glider_gun ∧
    glider_gun.width = 36 ∧ glider_gun.height = 9 ∧ glider_gun.cells.length = 36 * 9 ∧
    glider_gun.cells.count 1 = 36 ∧ glider_gun.cells.count 0 = 36 * 9 - 36 ∧
    (ticks 30 48 24 gunGrid).2 = 41 ∧
    (∀ x y : Nat, x < 48 → y < 24 → readCell 48 gunGrid y x = 1 →
      readCell 48 (ticks 30 48 24 gunGrid).1 y x = 1) ∧
    (∀ x y : Nat, 4 ≤ x → x < 4 + 36 → 4 ≤ y → y < 4 + 9 → readCell 48 gunGrid y x = 0 →
      readCell 48 (ticks 30 48 24 gunGrid).1 y x = 0) ∧
    (ticks 30 48 24 gunGrid).1 = List.zipWith max gunGrid (gridOfLive 48 24 gunGlider) ∧
    gunGlider.length = 5 ∧
    (∀ p ∈ gunGlider, readCell 48 gunGrid p.2 p.1 = 0 ∧ 4 + 9 ≤ p.2) ∧
    (ticks 3 48 24 (shapeGrid "glider" 48 24 26 12)).1 = gridOfLive 48 24 gunGlider := by
  obtain ⟨f1, f2, f3, f4, f5, f6⟩ := gunOrbit_facts
  have hread : ∀ x y : Nat, x < 48 → y < 24 →
      readCell 48 gunGrid y x = bitAt (gunOrbit.getD 0 0) (y * 48 + x) := by
    intro x y _ _
    rw [readCell_eq_bitAt 48 gunGrid gunGrid_isGrid.2, encodeBits_gunGrid]
  have hread30 : ∀ x y : Nat, x < 48 → y < 24 →
      readCell 48 (decodeBits (48 * 24) (gunOrbit.getD 10 0)) y x =
        bitAt (gunOrbit.getD 10 0) (y * 48 + x) := by
    intro x y hx hy
    exact readCell_decodeBits 48 _ _ y x (by omega)
  rw [ticks_gunGrid, ticks_loneGlider]
  dsimp only
  refine ⟨lookupShape_glider_gun, rfl, rfl, by decide!, by decide!, by decide!, f1, ?_, ?_, ?_,
    rfl, ?_, f6⟩
  · intro x y hx hy h
    rw [hread30 x y hx hy]
    rw [hread x y hx hy] at h
    exact f2 x hx y hy h
  · intro x y hx1 hx2 hy1 hy2 h
    rw [hread30 x y (by omega) (by omega)]
    rw [hread x y (by omega) (by omega)] at h
    exact f3 x (by omega) y (by omega) hx1 hy1 h
  · rw [← gunGrid_eq_decodeBits] at f4
    exact f4
  · intro p hp
    have hb := f5 p hp
    have hp2 : p.1 < 48 ∧ p.2 < 24 ∧ 4 + 9 ≤ p.2 := by
      revert p
      decide!
    rw [hread p.1 p.2 hp2.1 hp2.2.1]
    exact ⟨hb, hp2.2.2⟩


/-! ## The history tracker and the run controller -/

/-- C3: on the window `(h0, h1, h2)` (oldest first) and the current grid `g`, the history
loop of `main` leaves at the smallest `i` with `h_i = g` and reports the age
`HISTORY_LENGTH - i` (3 for `h0`, 2 for `h1`, 1 for `h2`); when no buffer equals `g`
it runs to its end and the window is exactly `(h1, h2, g)`. Every comparison is
against the buffer's original content, although earlier buffers have been shifted. -/
theorem history_loop_verdict (h0 h1 h2 g : List Nat) :
    loopAge (historyLoop g [h0, h1, h2]) =
      (if g = h0 then some (HISTORY_LENGTH - 0) else if g = h1 then some (HISTORY_LENGTH - 1)
        else if g = h2 then some (HISTORY_LENGTH - 2) else none) ∧
    loopAge (historyLoop g [h0, h1, h2]) =
      (if g = h0 then some 3 else if g = h1 then some 2 else if g = h2 then some 1 else none) ∧
    historyLoop g [h0, h1, h2] =
      (if g = h0 then HistoryLoop.hit 0 [h0, h1, h2]
        else if g = h1 then HistoryLoop.hit 1 [h1, h1, h2]
        else if g = h2 then HistoryLoop.hit 2 [h1, h2, h2]
        else HistoryLoop.running [h1, h2, g]) := by
  rw [historyLoop_three]
  refine ⟨?_, ?_, rfl⟩ <;> split_ifs <;> rfl

set_option maxRecDepth 100000 in
/-- C4 (the code at the failing input): the history buffers are never initialised, so a
fresh tracker compares against whatever they hold. With `history[2]` holding the
horizontal blinker, feeding horizontal, vertical, horizontal reports a loop of age 1 at
the first call and age 3 at the third; with zero-filled buffers the same sequence gives
continue, continue, loop of age 2. -/
theorem fresh_tracker_reads_stale_buffers :
    feedTracker [deadGrid 5 5, deadGrid 5 5, blinkerH] [blinkerH, blinkerV, blinkerH] =
      [some 1, none, some 3] ∧
    feedTracker [deadGrid 5 5, deadGrid 5 5, deadGrid 5 5] [blinkerH, blinkerV, blinkerH] =
      [none, none, some 2] ∧
    (tick 5 5 blinkerH).1 = blinkerV ∧ (tick 5 5 blinkerV).1 = blinkerH := by
  decide!

set_option maxRecDepth 100000 in
/-- C5 (counterexample): a 6 x 6 run in infinite mode. The second tick repeats the block
and restarts with seed 8; the window still holds the block recorded by the first run.
The first tick of the new run turns its seeded grid, which is not the block, into the
block and is reported as a loop at `history[1]`, a snapshot of the previous run. -/
theorem restart_keeps_old_snapshots :
    (blockRun 1).history = [deadGrid 6 6, deadGrid 6 6, blockGrid] ∧
    blockOutcome 1 = Outcome.reseeded (some 2) ∧
    (blockRun 2).history = [deadGrid 6 6, blockGrid, blockGrid] ∧
    (blockRun 2).seed = 8 ∧ (blockRun 2).ticks = 0 ∧
    (blockRun 2).cells = seededGrid blockGen 6 6 8 ∧
    (blockRun 2).cells ≠ blockGrid ∧
    (tick 6 6 (blockRun 2).cells).1 = blockGrid ∧
    blockOutcome 2 = Outcome.reseeded (some 1) := by
  decide!

/-- C5 (amended): in infinite mode a restart keeps the History Window. After an extinction
restart the three buffers are unchanged; after a loop restart found at `history[i]` the
buffers before `i` hold the content of their successors and `history[i]`, which equals
the grid that was reported, and the later buffers are unchanged. -/
theorem restart_leaves_history (gen : Int → Nat → Nat) (width height : Nat) (tps : Int)
    (eof : Bool) (s : RunState) (h0 h1 h2 : List Nat) (hs : s.history = [h0, h1, h2]) :
    ((mainLoopBody gen width height true tps eof s).2 = Outcome.reseeded none →
      (mainLoopBody gen width height true tps eof s).1.history = [h0, h1, h2]) ∧
    ((mainLoopBody gen width height true tps eof s).2 = Outcome.reseeded (some 0) →
      (mainLoopBody gen width height true tps eof s).1.history = [h0, h1, h2] ∧
      h0 = (tick width height s.cells).1) ∧
    ((mainLoopBody gen width height true tps eof s).2 = Outcome.reseeded (some 1) →
      (mainLoopBody gen width height true tps eof s).1.history = [h1, h1, h2] ∧
      h1 = (tick width height s.cells).1) ∧
    ((mainLoopBody gen width height true tps eof s).2 = Outcome.reseeded (some 2) →
      (mainLoopBody gen width height true tps eof s).1.history = [h1, h2, h2] ∧
      h2 = (tick width height s.cells).1) := by
  cases eof with
  | true =>
    rw [mainLoopBody_eof]
    split_ifs <;> simp [reseed, hs]
  | false =>
    rw [mainLoopBody_infinite gen width height tps s h0 h1 h2 hs]
    split_ifs <;> simp_all [reseed]

set_option maxRecDepth 100000 in
/-- Witness for C5 (amended): the second iteration of the 6 x 6 block run. -/
theorem restart_leaves_history_witness :
    (blockRun 1).history = [deadGrid 6 6, deadGrid 6 6, blockGrid] ∧
    ((mainLoopBody blockGen 6 6 true 5 false (blockRun 1)).2 = Outcome.reseeded (some 2) →
      (mainLoopBody blockGen 6 6 true 5 false (blockRun 1)).1.history =
        [deadGrid 6 6, blockGrid, blockGrid] ∧
      blockGrid = (tick 6 6 (blockRun 1).cells).1) :=
  ⟨by decide!, (restart_leaves_history blockGen 6 6 5 false (blockRun 1)
    (deadGrid 6 6) (deadGrid 6 6) blockGrid (by decide!)).2.2.2⟩

/-- C6: in infinite mode every extinction and every loop event restarts the run: the
seed becomes the previous seed plus 1, the whole grid is what `seed_cells` draws from
the new seed, and the tick counter is 0, so the next rendered tick is numbered 1. In
finite mode, and on every tick that is rendered and followed by another, the seed is
unchanged and the tick counter grows by exactly 1. -/
theorem restart_increments_seed (gen : Int → Nat → Nat) (width height : Nat) (tps : Int)
    (eof : Bool) (s : RunState) (hlen : s.cells.length = width * height) :
    (∀ hit, (mainLoopBody gen width height true tps eof s).2 = Outcome.reseeded hit →
      (mainLoopBody gen width height true tps eof s).1.seed = s.seed + 1 ∧
      (mainLoopBody gen width height true tps eof s).1.cells =
        seededGrid gen width height (s.seed + 1) ∧
      (mainLoopBody gen width height true tps eof s).1.cells =
        (seed_cells gen width height (tick width height s.cells).1 (srand (s.seed + 1))).1 ∧
      (mainLoopBody gen width height true tps eof s).1.ticks = 0) ∧
    ((tick width height s.cells).2 = 0 →
      (mainLoopBody gen width height true tps eof s).2 = Outcome.reseeded none) ∧
    ((tick width height s.cells).2 ≠ 0 → eof = false → ∀ i history,
      historyLoop (tick width height s.cells).1 s.history = HistoryLoop.hit i history →
      (mainLoopBody gen width height true tps eof s).2 = Outcome.reseeded (some i)) ∧
    ((mainLoopBody gen width height false tps eof s).1.seed = s.seed ∧
      (mainLoopBody gen width height false tps eof s).1.ticks = s.ticks + 1) ∧
    (∀ infinite n t, (mainLoopBody gen width height infinite tps eof s).2 = Outcome.rendered n t →
      (mainLoopBody gen width height infinite tps eof s).1.seed = s.seed ∧
      (mainLoopBody gen width height infinite tps eof s).1.ticks = s.ticks + 1 ∧
      t = s.ticks + 1 ∧ (s.ticks = 0 → t = 1)) := by
  have hseed := seed_cells_srand gen width height (tick width height s.cells).1 (s.seed + 1)
    (tick_length width height s.cells hlen)
  by_cases h0 : (tick width height s.cells).2 = 0
  · simp [mainLoopBody, h0, reseed, hseed]
  · cases eof with
    | true => simp [mainLoopBody, h0]
    | false =>
      cases hh : historyLoop (tick width height s.cells).1 s.history with
      | hit i history => simp [mainLoopBody, h0, hh, reseed, hseed]
      | running history =>
        by_cases ht : tps = 0
        · simp [mainLoopBody, h0, hh, ht]
        · simp only [mainLoopBody, h0, hh, ht, if_false, Bool.false_eq_true, if_true]
          simp

set_option maxRecDepth 100000 in
/-- Witness for C6: the second iteration of the 6 x 6 block run. -/
theorem restart_increments_seed_witness :
    (blockRun 1).cells.length = 6 * 6 ∧
    ((mainLoopBody blockGen 6 6 false 5 false (blockRun 1)).1.seed = (blockRun 1).seed ∧
      (mainLoopBody blockGen 6 6 false 5 false (blockRun 1)).1.ticks = (blockRun 1).ticks + 1) :=
  ⟨by decide!, (restart_increments_seed blockGen 6 6 5 false (blockRun 1) (by decide!)).2.2.2.1⟩

set_option maxRecDepth 100000 in
/-- C7 (counterexample): finite mode, `tps = 0`, input open. The tick of the horizontal
blinker returns 3 and its grid equals no stored snapshot, yet the run does not continue:
the generation is rendered and the loop is left. -/
theorem zero_tps_stops_after_render :
    (tick 5 5 blinkerH).2 ≠ 0 ∧
    (tick 5 5 blinkerH).1 ∉ [deadGrid 5 5, deadGrid 5 5, deadGrid 5 5] ∧
    mainLoopBody blockGen 5 5 false 0 false
        (blinkerRun0 [deadGrid 5 5, deadGrid 5 5, deadGrid 5 5]) =
      ({ cells := blinkerV, history := [deadGrid 5 5, deadGrid 5 5, blinkerV], seed := -1,
         ticks := 1, rng := srand 1 },
        Outcome.renderedThenStopped 3 1) := by
  decide!

/-- C7 (amended): in finite mode with the input open, an iteration decides in this order.
If `tick` returned 0 it halts with "all dead" and the History Window is neither
compared nor changed. Otherwise it halts with "stuck in a loop" exactly when the new
grid equals a stored snapshot, reporting 3, 2 or 1 for the oldest such snapshot.
Otherwise the window becomes `(h1, h2, grid)` and the generation is rendered; the run
then continues unless `tps` is 0, in which case it stops after this render. One
iteration reports one reason only. -/
theorem finite_iteration_order (gen : Int → Nat → Nat) (width height : Nat) (tps : Int)
    (s : RunState) (h0 h1 h2 : List Nat) (hs : s.history = [h0, h1, h2]) :
    ((tick width height s.cells).2 = 0 →
      mainLoopBody gen width height false tps false s =
        ({ s with cells := (tick width height s.cells).1, ticks := s.ticks + 1 },
          Outcome.allDead)) ∧
    ((tick width height s.cells).2 ≠ 0 →
      (mainLoopBody gen width height false tps false s).2 =
        if (tick width height s.cells).1 = h0 then Outcome.stuckInLoop 3
        else if (tick width height s.cells).1 = h1 then Outcome.stuckInLoop 2
        else if (tick width height s.cells).1 = h2 then Outcome.stuckInLoop 1
        else if tps = 0 then
          Outcome.renderedThenStopped (tick width height s.cells).2 (s.ticks + 1)
        else Outcome.rendered (tick width height s.cells).2 (s.ticks + 1)) ∧
    ((tick width height s.cells).2 ≠ 0 → (tick width height s.cells).1 ≠ h0 →
      (tick width height s.cells).1 ≠ h1 → (tick width height s.cells).1 ≠ h2 →
      (mainLoopBody gen width height false tps false s).1.history =
        [h1, h2, (tick width height s.cells).1]) ∧
    ((mainLoopBody gen width height false tps false s).2 = Outcome.allDead ↔
      (tick width height s.cells).2 = 0) ∧
    (∀ age, (mainLoopBody gen width height false tps false s).2 = Outcome.stuckInLoop age →
      (tick width height s.cells).2 ≠ 0 ∧
      ((tick width height s.cells).1 = h0 ∨ (tick width height s.cells).1 = h1 ∨
        (tick width height s.cells).1 = h2)) := by
  rw [mainLoopBody_finite gen width height tps s h0 h1 h2 hs]
  refine ⟨?_, ?_, ?_, ?_, ?_⟩
  · intro h; simp [h]
  · intro h; simp only [h, if_false]; split_ifs <;> rfl
  · intro h a b c; simp [h, a, b, c]
  · split_ifs <;> simp_all
  · intro age; split_ifs <;> simp_all

set_option maxRecDepth 100000 in
/-- Witness for C7 (amended): the first iteration on the horizontal blinker at 5 ticks
per second. -/
theorem finite_iteration_order_witness :
    (blinkerRun0 [deadGrid 5 5, deadGrid 5 5, deadGrid 5 5]).history =
      [deadGrid 5 5, deadGrid 5 5, deadGrid 5 5] ∧
    ((mainLoopBody blockGen 5 5 false 5 false
        (blinkerRun0 [deadGrid 5 5, deadGrid 5 5, deadGrid 5 5])).2 = Outcome.allDead ↔
      (tick 5 5 (blinkerRun0 [deadGrid 5 5, deadGrid 5 5, deadGrid 5 5]).cells).2 = 0) :=
  ⟨rfl, (finite_iteration_order blockGen 5 5 5
    (blinkerRun0 [deadGrid 5 5, deadGrid 5 5, deadGrid 5 5])
    (deadGrid 5 5) (deadGrid 5 5) (deadGrid 5 5) rfl).2.2.2.1⟩

set_option maxRecDepth 100000 in
/-- C11 (the code at the failing input): a finite 5 x 5 run on the horizontal blinker
whose buffer `history[0]` happens to hold the vertical blinker before any tick. The
first tick produces the vertical blinker and the run ends with "stuck in a loop (same
as 3 ticks ago)" at tick 1, although no tick of this run recorded that snapshot. -/
theorem first_tick_matches_stale_buffer :
    mainLoopBody blockGen 5 5 false 5 false
        (blinkerRun0 [blinkerV, deadGrid 5 5, deadGrid 5 5]) =
      ({ cells := blinkerV, history := [blinkerV, deadGrid 5 5, deadGrid 5 5], seed := -1,
         ticks := 1, rng := srand 1 },
        Outcome.stuckInLoop 3) := by
  decide!

/-! ## Seeding, stamping and dimensions -/

/-- C13: with the draws after `srand(seed)` written `gen seed 0, gen seed 1, ...`,
`seed_cells` on a `width * height` grid uses exactly `width * height` draws and leaves
cell `(x, y)` equal to the low bit of draw `y * width + x`, whatever the grid held
before; so the result depends on `(seed, width, height)` only and every cell is 0 or 1. -/
theorem seed_cells_low_bits (gen : Int → Nat → Nat) (width height : Nat) (cells : List Nat)
    (seed : Int) (hlen : cells.length = width * height) :
    (seed_cells gen width height cells (srand seed)).2 = { seed := seed, pos := width * height } ∧
    (seed_cells gen width height cells (srand seed)).1.length = width * height ∧
    (∀ x y : Nat, x < width → y < height →
      readCell width (seed_cells gen width height cells (srand seed)).1 y x =
        gen seed (y * width + x) % 2) ∧
    (∀ other : List Nat, other.length = width * height →
      seed_cells gen width height other (srand seed) =
        seed_cells gen width height cells (srand seed)) ∧
    (∀ c ∈ (seed_cells gen width height cells (srand seed)).1, c = 0 ∨ c = 1) := by
  rw [seed_cells_srand gen width height cells seed hlen]
  refine ⟨rfl, by simp [seededGrid], ?_, ?_, ?_⟩
  · intro x y hx hy
    have hlt := flat_lt width height y x hy hx
    unfold readCell seededGrid
    rw [cellIndex_natCast, List.getD_eq_getElem?_getD,
      List.getElem?_eq_getElem (by simpa using hlt)]
    simp
  · intro other ho
    exact seed_cells_srand gen width height other seed ho
  · intro c hc
    unfold seededGrid at hc
    obtain ⟨k, _, rfl⟩ := List.mem_map.mp hc
    omega

/-- Witness for C13: a 3 x 2 grid of nines and a generator whose draw `i` after
`srand(5)` is `(5 + i) * 7`. -/
theorem seed_cells_low_bits_witness :
    [9, 9, 9, 9, 9, 9].length = 3 * 2 ∧
    (seed_cells (fun s i => (s.toNat + i) * 7) 3 2 [9, 9, 9, 9, 9, 9] (srand 5)).2 =
      { seed := 5, pos := 3 * 2 } :=
  ⟨rfl, (seed_cells_low_bits (fun s i => (s.toNat + i) * 7) 3 2 [9, 9, 9, 9, 9, 9] 5 rfl).1⟩

/-- C14: when the offset keeps the shape inside the grid, stamping sets grid cell
`(x + x_offset, y + y_offset)` to `shape.cells[shape.width * y + x]` for every `(x, y)`
of the shape's box and leaves every grid cell outside that box unchanged. -/
theorem stamp_inside_grid (width height : Nat) (sc : ShapeCells) (x_offset y_offset : Int)
    (cells : List Nat) (hlen : cells.length = width * height)
    (hx0 : 0 ≤ x_offset) (hx1 : x_offset + sc.width ≤ width)
    (hy0 : 0 ≤ y_offset) (hy1 : y_offset + sc.height ≤ height) :
    (stampCells width sc x_offset y_offset cells).length = width * height ∧
    (∀ x y : Nat, x < sc.width → y < sc.height →
      readCell width (stampCells width sc x_offset y_offset cells)
          ((y : Int) + y_offset) ((x : Int) + x_offset) =
        sc.cells.getD (sc.width * y + x) 0) ∧
    (∀ gx gy : Nat, gx < width → gy < height →
      ¬ (x_offset ≤ gx ∧ (gx : Int) < x_offset + sc.width ∧
         y_offset ≤ gy ∧ (gy : Int) < y_offset + sc.height) →
      readCell width (stampCells width sc x_offset y_offset cells) gy gx =
        readCell width cells gy gx) := by
  obtain ⟨xo, rfl⟩ := Int.eq_ofNat_of_zero_le hx0
  obtain ⟨yo, rfl⟩ := Int.eq_ofNat_of_zero_le hy0
  have hx : xo + sc.width ≤ width := by exact_mod_cast hx1
  have hy : yo + sc.height ≤ height := by exact_mod_cast hy1
  rw [stampCells_eq width height sc xo yo cells hlen hx hy]
  refine ⟨by simp, ?_, ?_⟩
  · intro x y hxs hys
    have hxw : x + xo < width := by omega
    have hlt := flat_lt width height (y + yo) (x + xo) (by omega) hxw
    unfold readCell
    rw [← Int.natCast_add, ← Int.natCast_add, cellIndex_natCast, List.getD_eq_getElem?_getD,
      List.getElem?_eq_getElem (by simpa using hlt)]
    simp only [List.getElem_map, List.getElem_range, Option.getD_some, stampedCell,
      flat_div _ _ _ hxw, flat_mod _ _ _ hxw]
    have e1 : y + yo - yo = y := by omega
    have e2 : x + xo - xo = x := by omega
    rw [e1, e2, if_pos ⟨by omega, by omega, by omega, by omega⟩]
  · intro gx gy hgx hgy hout
    have hlt := flat_lt width height gy gx hgy hgx
    unfold readCell
    rw [cellIndex_natCast, List.getD_eq_getElem?_getD,
      List.getElem?_eq_getElem (by simpa using hlt)]
    simp only [List.getElem_map, List.getElem_range, Option.getD_some, stampedCell,
      flat_div _ _ _ hgx, flat_mod _ _ _ hgx]
    rw [if_neg (by
      intro h
      apply hout
      omega)]

/-- Witness for C14: the glider stamped at offset (2, 1) of the all-dead 8 x 8 grid. -/
theorem stamp_inside_grid_witness :
    ((deadGrid 8 8).length = 8 * 8 ∧ (0 : Int) ≤ 2 ∧ (2 : Int) + glider.width ≤ (8 : Nat) ∧
      (0 : Int) ≤ 1 ∧ (1 : Int) + glider.height ≤ (8 : Nat)) ∧
    (stampCells 8 glider 2 1 (deadGrid 8 8)).length = 8 * 8 :=
  ⟨by decide, (stamp_inside_grid 8 8 glider 2 1 (deadGrid 8 8) (by decide) (by decide)
    (by decide) (by decide) (by decide)).1⟩

/-- C15 (the code at the failing input): with both `-w 1 -h 1` given, the dimension
block of `main` is skipped together with its two `assert`s, the run starts on a 1 x 1
grid and a tick is executed (here ending the finite run with "all dead"). The same
width with the height left unset fails the `assert`. -/
theorem explicit_dimensions_skip_assert :
    resolveDimensions 1 1 80 24 = some (1, 1) ∧
    (mainLoopBody blockGen 1 1 false 5 false
      { cells := seededGrid blockGen 1 1 3, history := [[0], [0], [0]], seed := 3, ticks := 0,
        rng := { seed := 3, pos := 1 } }).2 = Outcome.allDead ∧
    resolveDimensions (-1) 1 80 24 = none ∧
    (∀ width height ws_col ws_row : Int, width ≠ -1 → height ≠ -1 →
      resolveDimensions width height ws_col ws_row = some (width, height)) := by
  refine ⟨by decide, by decide, by decide, ?_⟩
  intro width height ws_col ws_row hw hh
  unfold resolveDimensions
  rw [if_neg (by simp [hw, hh])]

/-- C16 (the code at the failing input): on an 80 x 24 terminal, `-w 10` without `-h`
runs with width 80, not 10, because the width is replaced when the height is below 1;
and `-h 10` without `-w` leaves the width at -1 and fails the `assert`. A height that
is not given is taken from the terminal. -/
theorem width_follows_height_test :
    resolveDimensions 10 (-1) 80 24 = some (80, 21) ∧
    resolveDimensions (-1) 10 80 24 = none ∧
    resolveDimensions (-1) (-1) 80 24 = some (80, 21) := by
  decide

/-- C19: whatever values the cells of a `width * height` grid hold, after one tick,
and so after any positive number of ticks, every cell is 0 or 1. -/
theorem tick_makes_bitmap (width height : Nat) (cells : List Nat)
    (hlen : cells.length = width * height) :
    (∀ c ∈ (tick width height cells).1, c = 0 ∨ c = 1) ∧
    (∀ n, ∀ c ∈ (ticks (n + 1) width height cells).1, c = 0 ∨ c = 1) := by
  have key : ∀ g : List Nat, g.length = width * height →
      ∀ c ∈ (tick width height g).1, c = 0 ∨ c = 1 := by
    intro g hg c hc
    rw [tick_eq width height g hg] at hc
    have := (nextGrid_isGrid width height g).2 c hc
    omega
  have hl : ∀ n, (ticks n width height cells).1.length = width * height := by
    intro n
    induction n with
    | zero => exact hlen
    | succ n ih => exact tick_length width height _ ih
  exact ⟨key cells hlen, fun n => key _ (hl n)⟩

/-- Witness for C19: a 2 x 2 grid holding the bytes 255, 7, 0 and 1. -/
theorem tick_makes_bitmap_witness :
    [255, 7, 0, 1].length = 2 * 2 ∧ ∀ c ∈ (tick 2 2 [255, 7, 0, 1]).1, c = 0 ∨ c = 1 :=
  ⟨rfl, (tick_makes_bitmap 2 2 [255, 7, 0, 1] rfl).1⟩

/-! ## Index safety -/

/-- C20: for a grid with `width, height < 2^30` and a cell `(x, y)` of it, the four
wrapped coordinates `tick` computes lie in `[0, width)` and `[0, height)`, the sums
inside `mod` stay within the range of a 32-bit `int`, and the offset of each of the
nine cells read, which is also the offset written for `(x, y)`, is below
`width * height`. -/
theorem tick_indices_in_range (width height : Nat) (hw30 : width < 2 ^ 30)
    (hh30 : height < 2 ^ 30) (x y : Nat) (hx : x < width) (hy : y < height) :
    (0 ≤ mod ((x : Int) - 1) width ∧ mod ((x : Int) - 1) width < width) ∧
    (0 ≤ mod ((x : Int) + 1) width ∧ mod ((x : Int) + 1) width < width) ∧
    (0 ≤ mod ((y : Int) - 1) height ∧ mod ((y : Int) - 1) height < height) ∧
    (0 ≤ mod ((y : Int) + 1) height ∧ mod ((y : Int) + 1) height < height) ∧
    (∀ a ∈ [(x : Int) - 1, (x : Int) + 1], -(2 : Int) ^ 31 ≤ a ∧ a < 2 ^ 31 ∧
      -(2 : Int) ^ 31 ≤ Int.tmod a width + width ∧ Int.tmod a width + width < 2 ^ 31) ∧
    (∀ a ∈ [(y : Int) - 1, (y : Int) + 1], -(2 : Int) ^ 31 ≤ a ∧ a < 2 ^ 31 ∧
      -(2 : Int) ^ 31 ≤ Int.tmod a height + height ∧ Int.tmod a height + height < 2 ^ 31) ∧
    (∀ yy ∈ [mod ((y : Int) - 1) height, (y : Int), mod ((y : Int) + 1) height],
      ∀ xx ∈ [mod ((x : Int) - 1) width, (x : Int), mod ((x : Int) + 1) width],
        cellIndex width yy xx < width * height ∧ 0 ≤ yy * (width : Int) + xx ∧
        yy * (width : Int) + xx < (width : Int) * height) := by
  have hw : (0 : Int) < width := by omega
  have hh : (0 : Int) < height := by omega
  have bx : ∀ xx ∈ [mod ((x : Int) - 1) width, (x : Int), mod ((x : Int) + 1) width],
      0 ≤ xx ∧ xx < width := by
    intro xx hxx
    simp only [List.mem_cons, List.mem_singleton, List.not_mem_nil, or_false] at hxx
    rcases hxx with rfl | rfl | rfl
    · exact mod_range _ _ hw
    · omega
    · exact mod_range _ _ hw
  have by' : ∀ yy ∈ [mod ((y : Int) - 1) height, (y : Int), mod ((y : Int) + 1) height],
      0 ≤ yy ∧ yy < height := by
    intro yy hyy
    simp only [List.mem_cons, List.mem_singleton, List.not_mem_nil, or_false] at hyy
    rcases hyy with rfl | rfl | rfl
    · exact mod_range _ _ hh
    · omega
    · exact mod_range _ _ hh
  have ov : ∀ (d : Nat) (a : Int), 0 < d → d < 2 ^ 30 →
      -(2 : Int) ^ 31 ≤ Int.tmod a d + d ∧ Int.tmod a d + d < 2 ^ 31 := by
    intro d a hd hd30
    have h1 := tmod_gt_neg a d (by omega)
    have h2 := Int.tmod_lt_of_pos a (show (0 : Int) < d by omega)
    have h3 : (d : Int) < 2 ^ 30 := by exact_mod_cast hd30
    constructor <;> omega
  have hw30' : (width : Int) < 2 ^ 30 := by exact_mod_cast hw30
  have hh30' : (height : Int) < 2 ^ 30 := by exact_mod_cast hh30
  refine ⟨mod_range _ _ hw, mod_range _ _ hw, mod_range _ _ hh, mod_range _ _ hh, ?_, ?_, ?_⟩
  · intro a ha
    simp only [List.mem_cons, List.mem_singleton, List.not_mem_nil, or_false] at ha
    have := ov width a (by omega) hw30
    rcases ha with rfl | rfl <;> refine ⟨by omega, by omega, this.1, this.2⟩
  · intro a ha
    simp only [List.mem_cons, List.mem_singleton, List.not_mem_nil, or_false] at ha
    have := ov height a (by omega) hh30
    rcases ha with rfl | rfl <;> refine ⟨by omega, by omega, this.1, this.2⟩
  · intro yy hyy xx hxx
    obtain ⟨hy0, hy1⟩ := by' yy hyy
    obtain ⟨hx0, hx1⟩ := bx xx hxx
    refine ⟨cellIndex_lt width height yy xx hy0 hy1 hx0 hx1, ?_, ?_⟩
    · have := Int.mul_nonneg hy0 (le_of_lt hw)
      omega
    · have h1 : yy * (width : Int) ≤ ((height : Int) - 1) * width :=
        Int.mul_le_mul_of_nonneg_right (by omega) (le_of_lt hw)
      have h2 : ((height : Int) - 1) * width = (width : Int) * height - width := by ring
      omega

/-- Witness for C20: the corner cell (0, 0) of a 1 x 1 grid. -/
theorem tick_indices_in_range_witness :
    ((1 : Nat) < 2 ^ 30 ∧ (0 : Nat) < 1) ∧
    (0 ≤ mod (((0 : Nat) : Int) - 1) (1 : Nat) ∧ mod (((0 : Nat) : Int) - 1) (1 : Nat) < (1 : Nat)) :=
  ⟨by decide, (tick_indices_in_range 1 1 (by decide) (by decide) 0 0 (by decide) (by decide)).1⟩

/-! ## The window over a sequence of checks -/

/-- C17: start from any three history buffers and run the loop check on the grids `gs`,
at least two of them, every check reporting nothing. Then the three stored snapshots
are pairwise distinct; so for any grid `g` checked next at most one snapshot equals
`g`, and a check that compares the snapshots in any order of the indices 0, 1, 2
reports exactly what the history loop of `main` (oldest first) reports. -/
theorem window_distinct_after_two_continues (history : List (List Nat))
    (hlen : history.length = 3) (gs : List (List Nat)) (h2 : 2 ≤ gs.length)
    (hcont : ∀ v ∈ feedTracker history gs, v = none) :
    (feedHistory history gs).length = 3 ∧
    (feedHistory history gs).Nodup ∧
    ∀ g : List Nat,
      (∀ i j, i < 3 → j < 3 → g = (feedHistory history gs).getD i [] →
        g = (feedHistory history gs).getD j [] → i = j) ∧
      (∀ order : List Nat, order.Perm [0, 1, 2] →
        observeInOrder order (feedHistory history gs) g =
          loopAge (historyLoop g (feedHistory history gs))) := by
  obtain ⟨a, b, c, rfl⟩ := list_length_three history hlen
  obtain ⟨x, y, z, hW, hxy, hxz, hyz⟩ : ∃ x y z, feedHistory [a, b, c] gs = [x, y, z] ∧
      x ≠ y ∧ x ≠ z ∧ y ≠ z := by
    match gs, h2, hcont with
    | g1 :: g2 :: rest, _, hcont =>
      have h1 : loopAge (historyLoop g1 [a, b, c]) = none := hcont _ (by simp [feedTracker])
      obtain ⟨_, gb, gc, hw⟩ := historyLoop_continue a b c g1 h1
      have hrest : ∀ v ∈ feedTracker [b, c, g1] (g2 :: rest), v = none := by
        intro v hv
        apply hcont
        rw [feedTracker, hw]
        exact List.mem_cons_of_mem _ hv
      have := feedHistory_distinct (g2 :: rest) b c g1 gb gc (by simp) hrest
      show ∃ x y z, feedHistory (loopHistory (historyLoop g1 [a, b, c])) (g2 :: rest) =
        [x, y, z] ∧ _
      rw [hw]
      exact this
  rw [hW]
  refine ⟨rfl, by simp [hxy, hxz, hyz], ?_⟩
  intro g
  constructor
  · intro i j hi hj ei ej
    have hi' : i = 0 ∨ i = 1 ∨ i = 2 := by omega
    have hj' : j = 0 ∨ j = 1 ∨ j = 2 := by omega
    rcases hi' with rfl | rfl | rfl <;> rcases hj' with rfl | rfl | rfl <;>
      simp_all
  · intro order hperm
    have hperm := perm_three_cases order hperm
    rw [historyLoop_three]
    by_cases e0 : g = x
    · subst e0
      rcases hperm with rfl | rfl | rfl | rfl | rfl | rfl <;>
        simp [observeInOrder, loopAge, HISTORY_LENGTH, hxy, hxz]
    · by_cases e1 : g = y
      · subst e1
        rcases hperm with rfl | rfl | rfl | rfl | rfl | rfl <;>
          simp [observeInOrder, loopAge, HISTORY_LENGTH, e0, hyz]
      · by_cases e2 : g = z
        · subst e2
          rcases hperm with rfl | rfl | rfl | rfl | rfl | rfl <;>
            simp [observeInOrder, loopAge, HISTORY_LENGTH, e0, e1]
        · rcases hperm with rfl | rfl | rfl | rfl | rfl | rfl <;>
            simp [observeInOrder, loopAge, HISTORY_LENGTH, e0, e1, e2]

/-- Witness for C17: zero-filled buffers and two checks that report nothing. -/
theorem window_distinct_after_two_continues_witness :
    (([[0], [0], [0]] : List (List Nat)).length = 3 ∧
      2 ≤ ([[1], [2]] : List (List Nat)).length ∧
      ∀ v ∈ feedTracker [[0], [0], [0]] [[1], [2]], v = none) ∧
    (feedHistory [[0], [0], [0]] [[1], [2]]).Nodup :=
  ⟨by decide, (window_distinct_after_two_continues [[0], [0], [0]] (by decide) [[1], [2]]
    (by decide) (by decide)).2.1⟩

/-! ## Reported loops are real cycles -/

/-- C12: let three consecutive iterations of the run loop render and go on, so that the
window holds the snapshots recorded by the last three ticks of this run. If the next
iteration reports a loop with age `j` at the grid `G` (the exit message in finite
mode, the restart after the hit at `history[HISTORY_LENGTH - j]` in infinite mode),
then `1 ≤ j ≤ 3`, `j` ticks take `G` to `G`, and every later generation repeats with
period `j`. -/
theorem reported_loop_is_periodic (gen : Int → Nat → Nat) (width height : Nat)
    (infinite : Bool) (tps : Int) (e1 e2 e3 e4 : Bool) (s0 s1 s2 s3 : RunState)
    (n1 t1 n2 t2 n3 t3 j : Nat) (hlen : s0.history.length = 3)
    (r1 : mainLoopBody gen width height infinite tps e1 s0 = (s1, Outcome.rendered n1 t1))
    (r2 : mainLoopBody gen width height infinite tps e2 s1 = (s2, Outcome.rendered n2 t2))
    (r3 : mainLoopBody gen width height infinite tps e3 s2 = (s3, Outcome.rendered n3 t3))
    (r4 : (mainLoopBody gen width height infinite tps e4 s3).2 = Outcome.stuckInLoop j ∨
      ∃ i, (mainLoopBody gen width height infinite tps e4 s3).2 = Outcome.reseeded (some i) ∧
        j = HISTORY_LENGTH - i) :
    1 ≤ j ∧ j ≤ 3 ∧
    (ticks j width height (tick width height s3.cells).1).1 = (tick width height s3.cells).1 ∧
    ∀ m, (ticks (m + j) width height (tick width height s3.cells).1).1 =
      (ticks m width height (tick width height s3.cells).1).1 := by
  obtain ⟨a, b, c, hs0⟩ := list_length_three s0.history hlen
  obtain ⟨c1, w1⟩ := mainLoopBody_rendered gen width height infinite tps e1 s0 s1 a b c n1 t1 hs0 r1
  obtain ⟨c2, w2⟩ := mainLoopBody_rendered gen width height infinite tps e2 s1 s2 _ _ _ n2 t2 w1 r2
  obtain ⟨c3, w3⟩ := mainLoopBody_rendered gen width height infinite tps e3 s2 s3 _ _ _ n3 t3 w2 r3
  have hloop := mainLoopBody_loop gen width height infinite tps e4 s3 _ _ _ w3 j r4
  have hper : (ticks j width height (tick width height s3.cells).1).1 =
      (tick width height s3.cells).1 := by
    rcases hloop with ⟨rfl, h⟩ | ⟨rfl, h⟩ | ⟨rfl, h⟩
    · show (tick width height (tick width height (tick width height
        (tick width height s3.cells).1).1).1).1 = (tick width height s3.cells).1
      nth_rewrite 1 [h]
      rw [← c1, ← c2, ← c3]
    · show (tick width height (tick width height
        (tick width height s3.cells).1).1).1 = (tick width height s3.cells).1
      nth_rewrite 1 [h]
      rw [← c2, ← c3]
    · show (tick width height (tick width height s3.cells).1).1 =
        (tick width height s3.cells).1
      nth_rewrite 1 [h]
      rw [← c3]
  refine ⟨?_, ?_, hper, ?_⟩
  · rcases hloop with ⟨rfl, _⟩ | ⟨rfl, _⟩ | ⟨rfl, _⟩ <;> omega
  · rcases hloop with ⟨rfl, _⟩ | ⟨rfl, _⟩ | ⟨rfl, _⟩ <;> omega
  · intro m
    rw [ticks_add_fst, hper]

set_option maxRecDepth 100000 in
/-- Witness for C12: the finite 6 x 6 run `cornerRun`, whose fourth tick repeats the
third. -/
theorem reported_loop_is_periodic_witness :
    (cornerRun 0).history.length = 3 ∧
    (mainLoopBody blockGen 6 6 false 5 false (cornerRun 3)).2 = Outcome.stuckInLoop 1 ∧
    (ticks 1 6 6 (tick 6 6 (cornerRun 3).cells).1).1 = (tick 6 6 (cornerRun 3).cells).1 :=
  ⟨rfl, by decide!,
    (reported_loop_is_periodic blockGen 6 6 false 5 false false false false
      (cornerRun 0) (cornerRun 1) (cornerRun 2) (cornerRun 3) 4 1 6 2 6 3 1 rfl
      (by decide!) (by decide!) (by decide!) (Or.inl (by decide!))).2.2.1⟩

/-! ## The torus has no edge -/

/-- C18: `tick` commutes with every translation of the torus: ticking the grid shifted
by `(a, b)`, whose cell `(x, y)` is the cell `(mod (x - a) width, mod (y - b) height)` of
`cells`, gives the shifted result of ticking `cells`, and both ticks return the same
live count. -/
theorem tick_commutes_with_shift (width height : Nat) (cells : List Nat) (a b : Int)
    (hlen : cells.length = width * height) :
    (∀ x y : Nat, x < width → y < height →
      readCell width (shiftGrid width height a b cells) y x =
        readCell width cells (mod ((y : Int) - b) height) (mod ((x : Int) - a) width)) ∧
    (tick width height (shiftGrid width height a b cells)).1 =
      shiftGrid width height a b (tick width height cells).1 ∧
    (tick width height (shiftGrid width height a b cells)).2 = (tick width height cells).2 := by
  refine ⟨?_, ?_, ?_⟩
  · intro x y hx hy
    exact readCell_shiftGrid width height a b cells y x (by omega) (by omega) (by omega)
      (by omega)
  · rw [tick_eq _ _ _ (shiftGrid_length width height a b cells), tick_eq _ _ _ hlen]
    exact nextGrid_shiftGrid width height a b cells
  · rw [tick_eq _ _ _ (shiftGrid_length width height a b cells), tick_eq _ _ _ hlen]
    show (nextGrid width height (shiftGrid width height a b cells)).count 1 =
      (nextGrid width height cells).count 1
    rw [nextGrid_shiftGrid, count_one_shiftGrid _ _ _ _ _ (nextGrid_length _ _ _)]

set_option maxRecDepth 100000 in
/-- Witness for C18: the horizontal blinker on the 5 x 5 grid shifted by (-3, 4), which
moves it across both seams. -/
theorem tick_commutes_with_shift_witness :
    blinkerH.length = 5 * 5 ∧
    (tick 5 5 (shiftGrid 5 5 (-3) 4 blinkerH)).1 = shiftGrid 5 5 (-3) 4 (tick 5 5 blinkerH).1 ∧
    shiftGrid 5 5 (-3) 4 blinkerH = gridOfLive 5 5 [(3, 1), (4, 1), (0, 1)] :=
  ⟨by decide!, (tick_commutes_with_shift 5 5 blinkerH (-3) 4 (by decide!)).2.1, by decide!⟩

end GameOfLife
